import Mathlib

/-!
Shallow embedding of the esrigrid repository's grid model (src/model/esrigrid.go).

Modelling conventions, fixed once for the whole development:

* Go `float32` height/corner/cell values are modelled by `ℚ`.  Every operation the
  program performs on them (exact equality with the sentinel, `<`/`>` comparison for
  the running extrema, parsing of short decimal literals) is exact on the values the
  claims mention, so the rational model is faithful there.
* Go `int` is modelled by `Int` (indices can be negative in Go).
* The input file is modelled as the list of its newline-terminated lines, each given
  without its trailing newline character.  `bufio.Reader.ReadString('\n')` returns a
  non-nil error exactly when no newline is found (end of input); the program always
  discards the partial data and leaves the read loop (or returns the error) in that
  case, so a trailing unterminated fragment never influences the result and the
  end-of-list case models it.
* A function that can return a Go `error`, or panic at run time (slice index out of
  range, `make` with negative length), returns `GoResult`; `GoResult.goError` is a
  returned non-nil error, `GoResult.goPanic` a run-time panic.  `SetHeight`, which
  never returns an error but can panic, returns `Option` with `none` as the panic.
* Logging (`log.Printf`, the `verbose` flag) has no effect on the data and is not
  modelled.
* `strings.TrimSpace` trims Unicode white space; the inputs of interest are ASCII and
  the model trims the ASCII white-space characters.
* Source line 162 reads `if height = noDataValue`, which is an assignment to an
  undefined identifier and is not legal Go (the file does not compile as written).
  The specification (§9) records this and fixes the intent as the comparison
  `height == ceg.noDataValue`; `SetHeight` below embeds that intended comparison and
  the divergence is settled under claim C1.
* `fmt.Sscanf` with verb `%d` reads an optional sign followed by a non-empty run of
  decimal digits and ignores the rest of the token; with verb `%f` it collects a
  structured prefix (sign, digits, optional point and digits, optional exponent) and
  then converts it, failing if the collected text is not a complete decimal literal.
  Leading spaces and tabs are skipped.  Hexadecimal floats, `Inf`/`NaN` and digit
  group separators are not modelled (no claim involves them).
-/

/-- Outcome of running a Go function that may return an error or panic. -/
inductive GoResult (α : Type) where
  | ok : α → GoResult α
  | goError : GoResult α
  | goPanic : GoResult α
  deriving DecidableEq, Repr

/-- ASCII white space, as trimmed by `strings.TrimSpace` on ASCII input. -/
def goIsSpace (c : Char) : Bool :=
  c = ' ' || c = '\t' || c = '\n' || c = '\x0b' || c = '\x0c' || c = '\r'

/-- White space skipped by `fmt.Sscanf` in front of a numeric verb. -/
def isScanSpace (c : Char) : Bool :=
  c = ' ' || c = '\t'

/-- Decimal digit test. -/
def isDigitCh (c : Char) : Bool :=
  '0' ≤ c && c ≤ '9'

/-- Numeric value of a decimal digit run, most significant first. -/
def natFromDigits (l : List Char) : Nat :=
  l.foldl (fun acc c => 10 * acc + (c.toNat - ('0').toNat)) 0

/-- Optional leading sign of a numeric token: the sign factor and the rest. -/
def readSign (l : List Char) : Int × List Char :=
  match l with
  | '+' :: r => (1, r)
  | '-' :: r => (-1, r)
  | _ => (1, l)

/-- Model of `fmt.Sscanf(tok, "%d", &result)`: optional sign, then a non-empty run
of decimal digits; anything after the digit run is left unread and ignored. Returns
`none` when the scan fails (no digit found). -/
def parseGoInt (l : List Char) : Option Int :=
  let l0 := l.dropWhile isScanSpace
  let sp := readSign l0
  let ds := sp.2.takeWhile isDigitCh
  if ds.isEmpty then none else some (sp.1 * (natFromDigits ds : Int))

/-- Strict decimal literal: `[sign] digits [. digits] [e|E [sign] digits]` with at
least one mantissa digit and nothing left over (the conversion step of `%f`).  The
value is the exact rational `sign * (integer digits . fraction digits) * 10 ^
(signed exponent)`, written with `mkRat` over integer arithmetic. -/
def parseFloatStrict (l : List Char) : Option ℚ :=
  let sp := readSign l
  let ip := sp.2.takeWhile isDigitCh
  let r1 := sp.2.dropWhile isDigitCh
  let fpr : List Char × List Char :=
    match r1 with
    | '.' :: r2 => (r2.takeWhile isDigitCh, r2.dropWhile isDigitCh)
    | _ => ([], r1)
  if ip.length + fpr.1.length = 0 then none
  else
    let num : Int :=
      sp.1 * ((natFromDigits ip * 10 ^ fpr.1.length + natFromDigits fpr.1 : Nat) : Int)
    let den : Nat := 10 ^ fpr.1.length
    match fpr.2 with
    | [] => some (mkRat num den)
    | e :: r3 =>
      if e = 'e' ∨ e = 'E' then
        let esp := readSign r3
        let ed := esp.2.takeWhile isDigitCh
        let r4 := esp.2.dropWhile isDigitCh
        if ed.isEmpty then none
        else
          match r4 with
          | [] =>
            if esp.1 ≥ 0 then some (mkRat (num * ((10 ^ natFromDigits ed : Nat) : Int)) den)
            else some (mkRat num (den * 10 ^ natFromDigits ed))
          | _ => none
      else none

/-- Structured prefix collected by the `%f` scanner: sign, digit run, optional point
with digit run, optional exponent marker with sign and digit run. -/
def floatToken (l : List Char) : List Char :=
  let p0 : List Char × List Char :=
    match l with
    | '+' :: r => (['+'], r)
    | '-' :: r => (['-'], r)
    | _ => ([], l)
  let d1 := p0.2.takeWhile isDigitCh
  let r1 := p0.2.dropWhile isDigitCh
  let p2 : List Char × List Char :=
    match r1 with
    | '.' :: r2 => ('.' :: r2.takeWhile isDigitCh, r2.dropWhile isDigitCh)
    | _ => ([], r1)
  let p3 : List Char :=
    match p2.2 with
    | 'e' :: r2 =>
      'e' :: (match r2 with
        | '+' :: r3 => '+' :: r3.takeWhile isDigitCh
        | '-' :: r3 => '-' :: r3.takeWhile isDigitCh
        | _ => r2.takeWhile isDigitCh)
    | 'E' :: r2 =>
      'E' :: (match r2 with
        | '+' :: r3 => '+' :: r3.takeWhile isDigitCh
        | '-' :: r3 => '-' :: r3.takeWhile isDigitCh
        | _ => r2.takeWhile isDigitCh)
    | _ => []
  p0.1 ++ d1 ++ p2.1 ++ p3

/-- Model of `fmt.Sscanf(tok, "%f", &f)`. -/
def parseGoFloat (l : List Char) : Option ℚ :=
  parseFloatStrict (floatToken (l.dropWhile isScanSpace))

/-- Trim of leading and trailing white space (`strings.TrimSpace`). -/
def trimSpace (l : List Char) : List Char :=
  ((l.dropWhile goIsSpace).reverse.dropWhile goIsSpace).reverse

/-- Replacement pass of the regular expression two-or-more-spaces by one space: every
maximal run of space characters becomes a single space (a lone space is kept as is,
a longer run is collapsed, which is the same thing).  The flag records whether the
previous character was a space. -/
def collapseAux : Bool → List Char → List Char
  | _, [] => []
  | prevSp, c :: rest =>
    if c = ' ' then
      if prevSp then collapseAux true rest
      else ' ' :: collapseAux true rest
    else c :: collapseAux false rest

/-- Model of `stripSpaces` (source lines 412-422): trim, then collapse interior runs
of two or more spaces to a single space.  The regular expression is constant and
always compiles, so the error branch of the Go function is dead and the model is
total.  Only the space character is collapsed: interior tabs are untouched. -/
def stripSpacesL (l : List Char) : List Char :=
  collapseAux false (trimSpace l)

/-- Accumulator pass of `strings.Split(s, " ")`: fields between single-space
separators, in order; always returns at least one field. -/
def splitSpAux (acc : List Char) : List Char → List (List Char)
  | [] => [acc.reverse]
  | c :: rest =>
    if c = ' ' then acc.reverse :: splitSpAux [] rest
    else splitSpAux (c :: acc) rest

/-- Model of `strings.Split(s, " ")`. -/
def splitOnSpace (l : List Char) : List (List Char) :=
  splitSpAux [] l

/-- Tokens of one line as the program produces them: strip, then split on single
spaces. -/
def lineTokens (l : List Char) : List (List Char) :=
  splitOnSpace (stripSpacesL l)

/-- The grid record (source lines 59-72).  `height` is the sample matrix; the Go nil
slice of an unparsed grid is the empty list. -/
structure ConcreteEsriGrid where
  ncols : Int
  nrows : Int
  xllcorner : ℚ
  yllcorner : ℚ
  cellsize : ℚ
  noDataValue : ℚ
  maxHeight : ℚ
  minHeight : ℚ
  height : List (List ℚ)
  minHeightSet : Bool
  maxHeightSet : Bool
  deriving DecidableEq, Repr

/-- Model of `MakeEsriGrid` (source lines 75-77): the zero value of the record. -/
def MakeEsriGrid : ConcreteEsriGrid :=
  { ncols := 0, nrows := 0, xllcorner := 0, yllcorner := 0, cellsize := 0,
    noDataValue := 0, maxHeight := 0, minHeight := 0, height := [],
    minHeightSet := false, maxHeightSet := false }

/-- Go slice read `l[i]` with an `int` index: `none` is the index-out-of-range panic. -/
def listGetI {α : Type} (l : List α) (i : Int) : Option α :=
  if i < 0 then none else l.get? i.toNat

/-- Go slice write `l[i] = a` with an `int` index: `none` is the panic. -/
def listSetI {α : Type} (l : List α) (i : Int) (a : α) : Option (List α) :=
  if i < 0 then none
  else if i.toNat < l.length then some (l.set i.toNat a) else none

/-- Go statement `m[r][c] = v` on the height matrix: evaluate `m[r]`, then write at
`c`, then the updated row is the `r`-th row of the result.  `none` is a panic. -/
def setCell (m : List (List ℚ)) (r c : Int) (v : ℚ) : Option (List (List ℚ)) :=
  match listGetI m r with
  | none => none
  | some rowvals =>
    match listSetI rowvals c v with
    | none => none
    | some rowvals2 => listSetI m r rowvals2

namespace ConcreteEsriGrid

/-- Accessor `Ncols` (source lines 80-82). -/
def Ncols (ceg : ConcreteEsriGrid) : Int := ceg.ncols

/-- Accessor `Nrows` (source lines 84-86). -/
def Nrows (ceg : ConcreteEsriGrid) : Int := ceg.nrows

/-- Accessor `Xllcorner` (source lines 89-91). -/
def Xllcorner (ceg : ConcreteEsriGrid) : ℚ := ceg.xllcorner

/-- Accessor `Yllcorner` (source lines 94-96). -/
def Yllcorner (ceg : ConcreteEsriGrid) : ℚ := ceg.yllcorner

/-- Accessor `CellSize` (source lines 99-101). -/
def CellSize (ceg : ConcreteEsriGrid) : ℚ := ceg.cellsize

/-- Accessor `NoDataValue` (source lines 104-106). -/
def NoDataValue (ceg : ConcreteEsriGrid) : ℚ := ceg.noDataValue

/-- Accessor `MaxHeight` (source lines 109-111). -/
def MaxHeight (ceg : ConcreteEsriGrid) : ℚ := ceg.maxHeight

/-- Accessor `MinHeight` (source lines 114-116). -/
def MinHeight (ceg : ConcreteEsriGrid) : ℚ := ceg.minHeight

/-- Accessor `Height` (source lines 119-121): `ceg.height[row][col]` with no bounds
check of its own; `none` is the index-out-of-range panic. -/
def Height (ceg : ConcreteEsriGrid) (row col : Int) : Option ℚ :=
  match listGetI ceg.height row with
  | none => none
  | some rowvals => listGetI rowvals col

/-- Mutator `SetNCols` (source lines 124-126): writes the field, nothing else. -/
def SetNCols (ceg : ConcreteEsriGrid) (n : Int) : ConcreteEsriGrid :=
  { ceg with ncols := n }

/-- Mutator `SetNRows` (source lines 129-131): writes the field, nothing else. -/
def SetNRows (ceg : ConcreteEsriGrid) (n : Int) : ConcreteEsriGrid :=
  { ceg with nrows := n }

/-- Mutator `SetXllcorner` (source lines 134-136). -/
def SetXllcorner (ceg : ConcreteEsriGrid) (v : ℚ) : ConcreteEsriGrid :=
  { ceg with xllcorner := v }

/-- Mutator `SetYllcorner` (source lines 139-141). -/
def SetYllcorner (ceg : ConcreteEsriGrid) (v : ℚ) : ConcreteEsriGrid :=
  { ceg with yllcorner := v }

/-- Mutator `SetCellSize` (source lines 144-146). -/
def SetCellSize (ceg : ConcreteEsriGrid) (v : ℚ) : ConcreteEsriGrid :=
  { ceg with cellsize := v }

/-- Mutator `SetNoDataValue` (source lines 149-151). -/
def SetNoDataValue (ceg : ConcreteEsriGrid) (v : ℚ) : ConcreteEsriGrid :=
  { ceg with noDataValue := v }

/-- Statistics half of `SetHeight` (source lines 165-183): widen `maxHeight`, then
`minHeight`, initializing each and its flag on the first value. -/
def updateStats (ceg1 : ConcreteEsriGrid) (height : ℚ) : ConcreteEsriGrid :=
  let ceg2 :=
    if ceg1.maxHeightSet then
      if height > ceg1.maxHeight then { ceg1 with maxHeight := height } else ceg1
    else { ceg1 with maxHeight := height, maxHeightSet := true }
  if ceg2.minHeightSet then
    if height < ceg2.minHeight then { ceg2 with minHeight := height } else ceg2
  else { ceg2 with minHeight := height, minHeightSet := true }

/-- Mutator `SetHeight` (source lines 154-184).  Order of operations is the
source's: reject when `row >= nrows || col >= ncols` (log only, no mutation); write
the cell (panic reachable for negative indices or an unallocated matrix); skip the
statistics when the value equals the grid's no-data value (source line 162, embedded
as the intended comparison, see the header comment); otherwise run the statistics
update. -/
def SetHeight (ceg : ConcreteEsriGrid) (row col : Int) (height : ℚ) :
    Option ConcreteEsriGrid :=
  if row ≥ ceg.nrows ∨ col ≥ ceg.ncols then some ceg
  else
    match setCell ceg.height row col height with
    | none => none
    | some m =>
      let ceg1 := { ceg with height := m }
      if height = ceg1.noDataValue then some ceg1
      else some (updateStats ceg1 height)

end ConcreteEsriGrid

/-- Per-line work of `readIntFromHeader` (source lines 360-384): strip, split on
spaces, compare `field[0]` with the expected name (log only, no effect), then scan
`field[1]` with `%d`.  A line with no second field panics with index out of range;
a second field that does not scan is a returned error. -/
def headerIntLine (l : List Char) : GoResult Int :=
  let field := splitOnSpace (stripSpacesL l)
  match field.get? 1 with
  | none => GoResult.goPanic
  | some tok =>
    match parseGoInt tok with
    | none => GoResult.goError
    | some v => GoResult.ok v

/-- Per-line work of `readFloat32FromHeader` (source lines 386-410), same shape as
the integer version with `%f`. -/
def headerFloatLine (l : List Char) : GoResult ℚ :=
  let field := splitOnSpace (stripSpacesL l)
  match field.get? 1 with
  | none => GoResult.goPanic
  | some tok =>
    match parseGoFloat tok with
    | none => GoResult.goError
    | some v => GoResult.ok v

/-- Model of `readIntFromHeader`: read one line (end of input is the returned read
error) and process it; on success also return the rest of the input. -/
def readIntFromHeader (r : List (List Char)) (fieldName : String) :
    GoResult (Int × List (List Char)) :=
  match r with
  | [] => GoResult.goError
  | line :: rest =>
    match headerIntLine line with
    | GoResult.ok v => GoResult.ok (v, rest)
    | GoResult.goError => GoResult.goError
    | GoResult.goPanic => GoResult.goPanic

/-- Model of `readFloat32FromHeader`. -/
def readFloat32FromHeader (r : List (List Char)) (fieldName : String) :
    GoResult (ℚ × List (List Char)) :=
  match r with
  | [] => GoResult.goError
  | line :: rest =>
    match headerFloatLine line with
    | GoResult.ok v => GoResult.ok (v, rest)
    | GoResult.goError => GoResult.goError
    | GoResult.goPanic => GoResult.goPanic

/-- Allocation at source lines 249-253: `make([][]float32, nrows)` then one
`make([]float32, ncols)` per row.  `make` with a negative length panics; with
`nrows = 0` the row loop never runs, so a negative `ncols` only panics when at
least one row is allocated. -/
def allocMatrix (nrows ncols : Int) : Option (List (List ℚ)) :=
  if nrows < 0 then none
  else if 0 < nrows ∧ ncols < 0 then none
  else some (List.replicate nrows.toNat (List.replicate ncols.toNat 0))

/-- Inner loop of the data section (source lines 333-347): scan each token with
`%f` (failure is a fatal returned error) and write it through `SetHeight` (whose
panic propagates). -/
def writeRowAux (ceg : ConcreteEsriGrid) (row : Int) (toks : List (List Char))
    (col : Int) : GoResult ConcreteEsriGrid :=
  match toks with
  | [] => GoResult.ok ceg
  | t :: rest =>
    match parseGoFloat t with
    | none => GoResult.goError
    | some f =>
      match ceg.SetHeight row col f with
      | none => GoResult.goPanic
      | some ceg2 => writeRowAux ceg2 row rest (col + 1)

/-- Data-line loop of `ReadEsriGridFromFile` (source lines 303-348): read a line
(end of input leaves the loop), count it, stop once the expected line count is
exceeded (warning only), strip and split it, skip it when the field count differs
from `ncols` (warning only), otherwise scan and write the row. -/
def dataLoop (ceg : ConcreteEsriGrid) (lines : List (List Char)) (row lineNum linesExpected : Int) :
    GoResult ConcreteEsriGrid :=
  match lines with
  | [] => GoResult.ok ceg
  | line :: rest =>
    let lineNum2 := lineNum + 1
    if lineNum2 > linesExpected then GoResult.ok ceg
    else
      let numbers := splitOnSpace (stripSpacesL line)
      if (numbers.length : Int) > ceg.ncols then dataLoop ceg rest (row + 1) lineNum2 linesExpected
      else if (numbers.length : Int) < ceg.ncols then dataLoop ceg rest (row + 1) lineNum2 linesExpected
      else
        match writeRowAux ceg row numbers 0 with
        | GoResult.ok ceg2 => dataLoop ceg2 rest (row + 1) lineNum2 linesExpected
        | GoResult.goError => GoResult.goError
        | GoResult.goPanic => GoResult.goPanic

/-- Model of `ReadEsriGridFromFile` (source lines 187-358) on the lines of an
already opened file: the six header reads in source order with the matrix
allocation after `nrows`, then the data loop with `lineNum = 6` and
`linesExpected = nrows + 6`.  Warnings about too few or too many lines are log
only; the final `fmt.Printf` does not change the grid. -/
def readLinesC (ceg : ConcreteEsriGrid) (lines : List (List Char)) :
    GoResult ConcreteEsriGrid :=
  match readIntFromHeader lines ("ncols") with
  | GoResult.goError => GoResult.goError
  | GoResult.goPanic => GoResult.goPanic
  | GoResult.ok (ncolsV, r1) =>
    let ceg := { ceg with ncols := ncolsV }
    match readIntFromHeader r1 ("nrows") with
    | GoResult.goError => GoResult.goError
    | GoResult.goPanic => GoResult.goPanic
    | GoResult.ok (nrowsV, r2) =>
      let ceg := { ceg with nrows := nrowsV }
      match allocMatrix ceg.nrows ceg.ncols with
      | none => GoResult.goPanic
      | some m =>
        let ceg := { ceg with height := m }
        match readFloat32FromHeader r2 ("xllcorner") with
        | GoResult.goError => GoResult.goError
        | GoResult.goPanic => GoResult.goPanic
        | GoResult.ok (xV, r3) =>
          let ceg := { ceg with xllcorner := xV }
          match readFloat32FromHeader r3 ("yllcorner") with
          | GoResult.goError => GoResult.goError
          | GoResult.goPanic => GoResult.goPanic
          | GoResult.ok (yV, r4) =>
            let ceg := { ceg with yllcorner := yV }
            match readFloat32FromHeader r4 ("cellsize") with
            | GoResult.goError => GoResult.goError
            | GoResult.goPanic => GoResult.goPanic
            | GoResult.ok (csV, r5) =>
              let ceg := { ceg with cellsize := csV }
              match readFloat32FromHeader r5 ("NODATA_value") with
              | GoResult.goError => GoResult.goError
              | GoResult.goPanic => GoResult.goPanic
              | GoResult.ok (ndV, r6) =>
                let ceg := { ceg with noDataValue := ndV }
                dataLoop ceg r6 0 6 (ceg.nrows + 6)

/-- Model of `ReadEsriGridFromFile` on a file given as its list of lines. -/
def readEsriGridFromFile (ceg : ConcreteEsriGrid) (lines : List String) :
    GoResult ConcreteEsriGrid :=
  readLinesC ceg (lines.map String.data)

/-- Project a successful parse result. -/
def GoResult.toOption {α : Type} : GoResult α → Option α
  | GoResult.ok a => some a
  | GoResult.goError => none
  | GoResult.goPanic => none

/-- All tokens of one data line scanned with the `%f` model, in order; `none` when
some token fails to scan (used to state when a data line is fully numeric). -/
def parseAll : List (List Char) → Option (List ℚ)
  | [] => some []
  | t :: ts =>
    match parseGoFloat t, parseAll ts with
    | some v, some vs => some (v :: vs)
    | _, _ => none

/-- A sequence of `SetHeight` calls, stopping at the first panic. -/
def applyWrites (g : ConcreteEsriGrid) : List (Int × Int × ℚ) → Option ConcreteEsriGrid
  | [] => some g
  | w :: ws =>
    match g.SetHeight w.1 w.2.1 w.2.2 with
    | none => none
    | some g2 => applyWrites g2 ws

/-- The sample matrix agrees with the declared dimensions: `nrows` rows, each of
`ncols` entries. -/
abbrev GoodShape (g : ConcreteEsriGrid) : Prop :=
  ((g.height.length : Int) = g.nrows) ∧ ∀ r ∈ g.height, (r.length : Int) = g.ncols

/-- A line built from a first token and further tokens, each preceded by a run of
`k + 1` spaces (so one or more spaces between consecutive tokens). -/
def sepJoin : List Char → List (Nat × List Char) → List Char
  | t, [] => t
  | t, p :: rest => t ++ List.replicate (p.1 + 1) ' ' ++ sepJoin p.2 rest

/-- A genuine token: non-empty and free of white space. -/
abbrev noSpaceTok (t : List Char) : Prop :=
  t ≠ [] ∧ ∀ c ∈ t, goIsSpace c = false

/-- A one-by-one grid with an allocated matrix and default scalars. -/
def oneByOneGrid : ConcreteEsriGrid :=
  { MakeEsriGrid with ncols := 1, nrows := 1, height := [[0]] }

/-- A one-by-one grid whose no-data value is the usual sentinel. -/
def noDataGrid : ConcreteEsriGrid :=
  { MakeEsriGrid with ncols := 1, nrows := 1, noDataValue := -9999, height := [[0]] }

/-- The grid obtained from `oneByOneGrid` by writing the sample 5 at the origin. -/
def oneWriteGrid : ConcreteEsriGrid :=
  { oneByOneGrid with
      height := [[5]], maxHeight := 5, minHeight := 5,
      maxHeightSet := true, minHeightSet := true }

/-- The documented example input (source lines 195-206 and the format
documentation): six header lines then six data rows of four columns. -/
def exampleFile : List String :=
  [("ncols         4"),
   ("nrows         6"),
   ("xllcorner     0.0"),
   ("yllcorner     0.0"),
   ("cellsize      50.0"),
   ("NODATA_value  -9999"),
   ("-9999 -9999 5 2"),
   ("-9999 20 100 36"),
   ("3 8 35 10"),
   ("32 42 50 6"),
   ("88 75 27 9"),
   ("13 5 1 -9999")]

/-! ## Lemmas about list access and the cell write -/

theorem listGetI_isSome {α : Type} (l : List α) (i : Int) :
    (listGetI l i).isSome = true ↔ 0 ≤ i ∧ i < (l.length : Int) := by
  unfold listGetI
  split
  · simp only [Option.isSome_none, Bool.false_eq_true, false_iff]
    omega
  · rename_i hnn
    constructor
    · intro hs
      by_contra hn
      rw [List.get?_eq_none.mpr (by omega)] at hs
      simp at hs
    · intro hb
      rw [List.get?_eq_get (by omega)]
      rfl

theorem listGetI_mem {α : Type} {l : List α} {i : Int} {a : α}
    (h : listGetI l i = some a) : a ∈ l := by
  unfold listGetI at h
  split at h
  · exact absurd h (by simp)
  · exact List.get?_mem h

theorem listGetI_bounds {α : Type} {l : List α} {i : Int} {a : α}
    (h : listGetI l i = some a) : 0 ≤ i ∧ i < (l.length : Int) :=
  (listGetI_isSome l i).mp (by rw [h]; rfl)

theorem listGetI_of_toNat {α : Type} {l : List α} {i : Int} (h0 : 0 ≤ i) :
    listGetI l i = l.get? i.toNat := by
  unfold listGetI
  rw [if_neg (by omega)]

theorem listSetI_eq {α : Type} {l : List α} {i : Int} (a : α)
    (h0 : 0 ≤ i) (hl : i.toNat < l.length) :
    listSetI l i a = some (l.set i.toNat a) := by
  unfold listSetI
  rw [if_neg (by omega), if_pos hl]

theorem setCell_eq {m : List (List ℚ)} {r c : Int} {old : List ℚ} (v : ℚ)
    (hr : listGetI m r = some old) (hc0 : 0 ≤ c) (hcl : c.toNat < old.length) :
    setCell m r c v = some (m.set r.toNat (old.set c.toNat v)) := by
  obtain ⟨h0, hlt⟩ := listGetI_bounds hr
  have h1 : listSetI old c v = some (old.set c.toNat v) := listSetI_eq v hc0 hcl
  have h2 : listSetI m r (old.set c.toNat v) = some (m.set r.toNat (old.set c.toNat v)) :=
    listSetI_eq _ h0 (by omega)
  unfold setCell
  simp only [hr, h1, h2]

theorem setCell_some_shape {m m2 : List (List ℚ)} {r c : Int} {v : ℚ}
    (h : setCell m r c v = some m2) :
    ∃ old, listGetI m r = some old ∧ 0 ≤ c ∧ c.toNat < old.length ∧
      m2 = m.set r.toNat (old.set c.toNat v) := by
  unfold setCell at h
  cases hg : listGetI m r with
  | none =>
    simp only [hg] at h
    exact Option.noConfusion h
  | some old =>
    have hb := listGetI_bounds hg
    simp only [hg] at h
    cases hs : listSetI old c v with
    | none =>
      simp only [hs] at h
      exact Option.noConfusion h
    | some old2 =>
      simp only [hs] at h
      unfold listSetI at hs
      split at hs
      · exact Option.noConfusion hs
      · split at hs
        · rename_i hcneg hclt
          injection hs with hs
          subst hs
          rw [listSetI_eq _ hb.1 (by omega)] at h
          injection h with h
          exact ⟨old, rfl, by omega, by omega, h.symm⟩
        · exact Option.noConfusion hs

theorem setCell_get_ne {m m2 : List (List ℚ)} {r c : Int} {v : ℚ}
    (h : setCell m r c v = some m2) (r2 : Int) (hne : r2 ≠ r) :
    listGetI m2 r2 = listGetI m r2 := by
  obtain ⟨old, hg, hc0, hcl, rfl⟩ := setCell_some_shape h
  obtain ⟨h0, hlt⟩ := listGetI_bounds hg
  unfold listGetI
  split
  · rfl
  · exact List.get?_set_ne _ m (by omega)

theorem setCell_get_eq {m m2 : List (List ℚ)} {r c : Int} {v : ℚ} {old : List ℚ}
    (hr : listGetI m r = some old) (hc0 : 0 ≤ c) (hcl : c.toNat < old.length)
    (h : setCell m r c v = some m2) :
    listGetI m2 r = some (old.set c.toNat v) := by
  obtain ⟨h0, hlt⟩ := listGetI_bounds hr
  rw [setCell_eq v hr hc0 hcl] at h
  injection h with h
  subst h
  rw [listGetI_of_toNat h0]
  exact List.get?_set_eq_of_lt _ (by omega)

theorem setCell_length {m m2 : List (List ℚ)} {r c : Int} {v : ℚ}
    (h : setCell m r c v = some m2) : m2.length = m.length := by
  obtain ⟨old, hg, hc0, hcl, rfl⟩ := setCell_some_shape h
  exact List.length_set m r.toNat _

theorem setCell_goodRows {m m2 : List (List ℚ)} {r c : Int} {v : ℚ} {n : Int}
    (h : setCell m r c v = some m2) (hm : ∀ row ∈ m, ((row.length : Int) = n))
    (row2 : List ℚ) (h2 : row2 ∈ m2) : (row2.length : Int) = n := by
  obtain ⟨old, hg, hc0, hcl, rfl⟩ := setCell_some_shape h
  rcases List.mem_or_eq_of_mem_set h2 with hmem | rfl
  · exact hm row2 hmem
  · rw [List.length_set]
    exact hm old (listGetI_mem hg)

/-! ## Lemmas about the statistics update and the height mutator -/

theorem updateStats_scalars (g : ConcreteEsriGrid) (v : ℚ) :
    (g.updateStats v).ncols = g.ncols ∧ (g.updateStats v).nrows = g.nrows ∧
    (g.updateStats v).noDataValue = g.noDataValue ∧ (g.updateStats v).height = g.height := by
  simp only [ConcreteEsriGrid.updateStats]
  repeat' split
  all_goals exact ⟨rfl, rfl, rfl, rfl⟩

theorem updateStats_flags (g : ConcreteEsriGrid) (v : ℚ) :
    (g.updateStats v).maxHeightSet = true ∧ (g.updateStats v).minHeightSet = true := by
  simp only [ConcreteEsriGrid.updateStats]
  repeat' split
  all_goals simp_all

theorem updateStats_bound (g : ConcreteEsriGrid) (v : ℚ) :
    (g.updateStats v).minHeight ≤ v ∧ v ≤ (g.updateStats v).maxHeight := by
  simp only [ConcreteEsriGrid.updateStats]
  repeat' split
  all_goals refine ⟨?_, ?_⟩
  all_goals simp_all

theorem updateStats_mono (g : ConcreteEsriGrid) (v : ℚ) :
    (g.maxHeightSet = true → g.maxHeight ≤ (g.updateStats v).maxHeight) ∧
    (g.minHeightSet = true → (g.updateStats v).minHeight ≤ g.minHeight) := by
  simp only [ConcreteEsriGrid.updateStats]
  repeat' split
  all_goals refine ⟨?_, ?_⟩
  all_goals intro hset
  all_goals simp_all
  all_goals linarith

theorem updateStats_ordered (g : ConcreteEsriGrid) (v : ℚ) :
    (g.updateStats v).minHeight ≤ (g.updateStats v).maxHeight := by
  have hb := updateStats_bound g v
  exact le_trans hb.1 hb.2

theorem setHeight_eq_of_in_range (g : ConcreteEsriGrid) (row col : Int) (v : ℚ)
    (hg : ¬(row ≥ g.nrows ∨ col ≥ g.ncols)) :
    g.SetHeight row col v =
      (match setCell g.height row col v with
       | none => none
       | some m =>
         if v = g.noDataValue then some { g with height := m }
         else some (ConcreteEsriGrid.updateStats { g with height := m } v)) := by
  unfold ConcreteEsriGrid.SetHeight
  rw [if_neg hg]

theorem setHeight_characterize (g : ConcreteEsriGrid) (row col : Int) (v : ℚ) :
    (row ≥ g.nrows ∨ col ≥ g.ncols) ∧ g.SetHeight row col v = some g
    ∨ ¬(row ≥ g.nrows ∨ col ≥ g.ncols) ∧ setCell g.height row col v = none ∧
        g.SetHeight row col v = none
    ∨ ∃ m, ¬(row ≥ g.nrows ∨ col ≥ g.ncols) ∧ setCell g.height row col v = some m ∧
        (v = g.noDataValue ∧ g.SetHeight row col v = some { g with height := m }
         ∨ v ≠ g.noDataValue ∧
             g.SetHeight row col v =
               some (ConcreteEsriGrid.updateStats { g with height := m } v)) := by
  by_cases hg : row ≥ g.nrows ∨ col ≥ g.ncols
  · left
    refine ⟨hg, ?_⟩
    unfold ConcreteEsriGrid.SetHeight
    rw [if_pos hg]
  · right
    rw [setHeight_eq_of_in_range g row col v hg]
    cases hsc : setCell g.height row col v with
    | none =>
      left
      exact ⟨hg, rfl, rfl⟩
    | some m =>
      right
      refine ⟨m, hg, rfl, ?_⟩
      by_cases hnd : v = g.noDataValue
      · left
        refine ⟨hnd, ?_⟩
        simp only [if_pos hnd]
      · right
        refine ⟨hnd, ?_⟩
        simp only [if_neg hnd]

theorem setHeight_guard {g : ConcreteEsriGrid} {row col : Int} (v : ℚ)
    (h : row ≥ g.nrows ∨ col ≥ g.ncols) : g.SetHeight row col v = some g := by
  unfold ConcreteEsriGrid.SetHeight
  rw [if_pos h]

theorem setHeight_fields {g g2 : ConcreteEsriGrid} {row col : Int} {v : ℚ}
    (h : g.SetHeight row col v = some g2) :
    g2.ncols = g.ncols ∧ g2.nrows = g.nrows ∧ g2.noDataValue = g.noDataValue := by
  rcases setHeight_characterize g row col v with ⟨hg, he⟩ | ⟨hg, hsc, he⟩ |
    ⟨m, hg, hsc, ⟨hnd, he⟩ | ⟨hnd, he⟩⟩
  · rw [he] at h
    injection h with h
    subst h
    exact ⟨rfl, rfl, rfl⟩
  · rw [he] at h
    exact Option.noConfusion h
  · rw [he] at h
    injection h with h
    subst h
    exact ⟨rfl, rfl, rfl⟩
  · rw [he] at h
    injection h with h
    subst h
    have hs := updateStats_scalars { g with height := m } v
    exact ⟨hs.1, hs.2.1, hs.2.2.1⟩

theorem setHeight_mono {g g2 : ConcreteEsriGrid} {row col : Int} {v : ℚ}
    (h : g.SetHeight row col v = some g2) :
    (g.maxHeightSet = true → g2.maxHeightSet = true ∧ g.maxHeight ≤ g2.maxHeight) ∧
    (g.minHeightSet = true → g2.minHeightSet = true ∧ g2.minHeight ≤ g.minHeight) := by
  rcases setHeight_characterize g row col v with ⟨hg, he⟩ | ⟨hg, hsc, he⟩ |
    ⟨m, hg, hsc, ⟨hnd, he⟩ | ⟨hnd, he⟩⟩
  · rw [he] at h
    injection h with h
    subst h
    exact ⟨fun hs => ⟨hs, le_refl _⟩, fun hs => ⟨hs, le_refl _⟩⟩
  · rw [he] at h
    exact Option.noConfusion h
  · rw [he] at h
    injection h with h
    subst h
    exact ⟨fun hs => ⟨hs, le_refl _⟩, fun hs => ⟨hs, le_refl _⟩⟩
  · rw [he] at h
    injection h with h
    subst h
    have hf := updateStats_flags { g with height := m } v
    have hm := updateStats_mono { g with height := m } v
    exact ⟨fun hs => ⟨hf.1, hm.1 hs⟩, fun hs => ⟨hf.2, hm.2 hs⟩⟩

theorem setHeight_ordered {g g2 : ConcreteEsriGrid} {row col : Int} {v : ℚ}
    (hinv : g.minHeightSet = true → g.maxHeightSet = true → g.minHeight ≤ g.maxHeight)
    (h : g.SetHeight row col v = some g2) :
    g2.minHeightSet = true → g2.maxHeightSet = true → g2.minHeight ≤ g2.maxHeight := by
  rcases setHeight_characterize g row col v with ⟨hg, he⟩ | ⟨hg, hsc, he⟩ |
    ⟨m, hg, hsc, ⟨hnd, he⟩ | ⟨hnd, he⟩⟩
  · rw [he] at h
    injection h with h
    subst h
    exact hinv
  · rw [he] at h
    exact Option.noConfusion h
  · rw [he] at h
    injection h with h
    subst h
    exact hinv
  · rw [he] at h
    injection h with h
    subst h
    intro _ _
    exact updateStats_ordered { g with height := m } v

theorem setHeight_written_bound {g g2 : ConcreteEsriGrid} {row col : Int} {v : ℚ}
    (hr : row < g.nrows) (hc : col < g.ncols) (hnd : v ≠ g.noDataValue)
    (h : g.SetHeight row col v = some g2) :
    g2.minHeightSet = true ∧ g2.maxHeightSet = true ∧
    g2.minHeight ≤ v ∧ v ≤ g2.maxHeight := by
  rcases setHeight_characterize g row col v with ⟨hg, he⟩ | ⟨hg, hsc, he⟩ |
    ⟨m, hg, hsc, ⟨hnd2, he⟩ | ⟨hnd2, he⟩⟩
  · rcases hg with hg | hg
    · omega
    · omega
  · rw [he] at h
    exact Option.noConfusion h
  · exact absurd hnd2 hnd
  · rw [he] at h
    injection h with h
    subst h
    have hf := updateStats_flags { g with height := m } v
    have hb := updateStats_bound { g with height := m } v
    exact ⟨hf.2, hf.1, hb.1, hb.2⟩

theorem setHeight_matrix {g g2 : ConcreteEsriGrid} {row col : Int} {v : ℚ}
    (hg : ¬(row ≥ g.nrows ∨ col ≥ g.ncols))
    (h : g.SetHeight row col v = some g2) :
    setCell g.height row col v = some g2.height := by
  rcases setHeight_characterize g row col v with ⟨hg2, he⟩ | ⟨hg2, hsc, he⟩ |
    ⟨m, hg2, hsc, ⟨hnd, he⟩ | ⟨hnd, he⟩⟩
  · exact absurd hg2 hg
  · rw [he] at h
    exact Option.noConfusion h
  · rw [he] at h
    injection h with h
    subst h
    exact hsc
  · rw [he] at h
    injection h with h
    subst h
    rw [(updateStats_scalars { g with height := m } v).2.2.2]
    exact hsc

theorem applyWrites_mono : ∀ (ws : List (Int × Int × ℚ)) (g g2 : ConcreteEsriGrid),
    applyWrites g ws = some g2 →
    (g.maxHeightSet = true → g2.maxHeightSet = true ∧ g.maxHeight ≤ g2.maxHeight) ∧
    (g.minHeightSet = true → g2.minHeightSet = true ∧ g2.minHeight ≤ g.minHeight) := by
  intro ws
  induction ws with
  | nil =>
    intro g g2 h
    simp only [applyWrites] at h
    injection h with h
    subst h
    exact ⟨fun hs => ⟨hs, le_refl _⟩, fun hs => ⟨hs, le_refl _⟩⟩
  | cons w ws ih =>
    intro g g2 h
    simp only [applyWrites] at h
    cases hs : g.SetHeight w.1 w.2.1 w.2.2 with
    | none =>
      simp only [hs] at h
      exact Option.noConfusion h
    | some g1 =>
      simp only [hs] at h
      have h1 := setHeight_mono hs
      have h2 := ih g1 g2 h
      constructor
      · intro hset
        obtain ⟨ha, hb⟩ := h1.1 hset
        obtain ⟨hc, hd⟩ := h2.1 ha
        exact ⟨hc, le_trans hb hd⟩
      · intro hset
        obtain ⟨ha, hb⟩ := h1.2 hset
        obtain ⟨hc, hd⟩ := h2.2 ha
        exact ⟨hc, le_trans hd hb⟩

theorem applyWrites_main : ∀ (ws : List (Int × Int × ℚ)) (g0 g : ConcreteEsriGrid),
    (g0.minHeightSet = true → g0.maxHeightSet = true → g0.minHeight ≤ g0.maxHeight) →
    applyWrites g0 ws = some g →
    (g.minHeightSet = true → g.maxHeightSet = true → g.minHeight ≤ g.maxHeight) ∧
    (∀ w ∈ ws, w.1 < g0.nrows → w.2.1 < g0.ncols → w.2.2 ≠ g0.noDataValue →
      g.minHeightSet = true ∧ g.maxHeightSet = true ∧
      g.minHeight ≤ w.2.2 ∧ w.2.2 ≤ g.maxHeight) := by
  intro ws
  induction ws with
  | nil =>
    intro g0 g hinv h
    simp only [applyWrites] at h
    injection h with h
    subst h
    exact ⟨hinv, by intro w hw; exact absurd hw (List.not_mem_nil w)⟩
  | cons w ws ih =>
    intro g0 g hinv h
    simp only [applyWrites] at h
    cases hs : g0.SetHeight w.1 w.2.1 w.2.2 with
    | none =>
      simp only [hs] at h
      exact Option.noConfusion h
    | some g1 =>
      simp only [hs] at h
      have hfields := setHeight_fields hs
      have hinv1 := setHeight_ordered hinv hs
      have hrest := ih g1 g hinv1 h
      refine ⟨hrest.1, ?_⟩
      intro w2 hw2 hr hc hnd
      rcases List.mem_cons.mp hw2 with rfl | hmem
      · have hb := setHeight_written_bound hr hc hnd hs
        have hm := applyWrites_mono ws g1 g h
        obtain ⟨ha1, ha2⟩ := hm.1 hb.2.1
        obtain ⟨hb1, hb2⟩ := hm.2 hb.1
        exact ⟨hb1, ha1, le_trans hb2 hb.2.2.1, le_trans hb.2.2.2 ha2⟩
      · exact hrest.2 w2 hmem (by rw [hfields.2.1]; exact hr) (by rw [hfields.1]; exact hc)
          (by rw [hfields.2.2]; exact hnd)

/-- C1: for an in-range `SetHeight(row, col, value)` with `value` equal to the
grid's `noDataValue`, the extrema and their flags are untouched while the cell is
written.  The source cannot exhibit this behavior as written: its guard at line 162
is `if height = noDataValue`, an assignment to an undefined identifier, which is
not legal Go, so the program does not compile; the statement proved here evaluates
the embedding, which reads that line as the intended comparison
`height == ceg.noDataValue` (the reading the specification fixes in its §9 note),
at the failing input `SetHeight(0, 0, -9999)` on a 1-by-1 grid whose no-data value
is -9999: the cell is written and the statistics fields are identical. -/
theorem setHeight_noData_leaves_extrema_intended :
    noDataGrid.SetHeight 0 0 (-9999) = some { noDataGrid with height := [[-9999]] } := by
  decide

/-- C5 counterexample: the negative index `(-1, 0)` is outside the valid range on a
1-by-1 grid with an allocated matrix, yet `SetHeight(-1, 0, 5)` does not return
with the grid unchanged: it reaches the index-out-of-range panic of
`ceg.height[row][col]` (the guard at source lines 156-159 only checks the upper
bounds), refuting the claim that every out-of-range write returns without
mutation. -/
theorem setHeight_negative_index_panics :
    oneByOneGrid.SetHeight (-1) 0 5 = none ∧
    oneByOneGrid.SetHeight (-1) 0 5 ≠ some oneByOneGrid := by
  decide

/-- C5 amended: for every `(row, col)` with `row ≥ rowCount` or `col ≥ columnCount`
(the region the guard at source lines 156-159 actually rejects), `SetHeight`
returns without mutating anything; indices that are out of range because they are
negative are instead an index-out-of-range panic (see the counterexample). -/
theorem setHeight_upper_out_of_range_no_mutation (g : ConcreteEsriGrid)
    (row col : Int) (v : ℚ) (h : row ≥ g.nrows ∨ col ≥ g.ncols) :
    g.SetHeight row col v = some g :=
  setHeight_guard v h

/-- C5 amended, witness: a concrete in-bounds-free instance of the amended
statement, obtained by applying it at `row = 5` on the 1-by-1 grid. -/
theorem setHeight_upper_out_of_range_no_mutation_witness :
    oneByOneGrid.SetHeight 5 0 7 = some oneByOneGrid :=
  setHeight_upper_out_of_range_no_mutation oneByOneGrid 5 0 7 (by decide)

/-- C2: after any sequence of `SetHeight` calls from a grid whose statistics
satisfy the basic order invariant (in particular a freshly parsed or zero grid),
every written value that is in range and differs from the no-data value lies
between `MinHeight()` and `MaxHeight()`, and whenever both statistics are set,
`MinHeight() ≤ MaxHeight()`. -/
theorem setHeight_extrema_invariant (g0 : ConcreteEsriGrid)
    (ws : List (Int × Int × ℚ)) (g : ConcreteEsriGrid)
    (hinv : g0.minHeightSet = true → g0.maxHeightSet = true → g0.minHeight ≤ g0.maxHeight)
    (happ : applyWrites g0 ws = some g) :
    (g.minHeightSet = true → g.maxHeightSet = true → g.MinHeight ≤ g.MaxHeight) ∧
    (∀ w ∈ ws, w.1 < g0.nrows → w.2.1 < g0.ncols → w.2.2 ≠ g0.noDataValue →
      g.MinHeight ≤ w.2.2 ∧ w.2.2 ≤ g.MaxHeight) := by
  have h := applyWrites_main ws g0 g hinv happ
  exact ⟨h.1, fun w hw hr hc hnd => ⟨(h.2 w hw hr hc hnd).2.2.1, (h.2 w hw hr hc hnd).2.2.2⟩⟩

/-- C2 witness: writing the single value 5 at the origin of the fresh 1-by-1 grid
produces a grid in which 5 is between the extrema and the extrema are ordered. -/
theorem setHeight_extrema_invariant_witness :
    applyWrites oneByOneGrid [(0, 0, 5)] = some oneWriteGrid ∧
    oneWriteGrid.MinHeight ≤ 5 ∧ (5 : ℚ) ≤ oneWriteGrid.MaxHeight := by
  have h := setHeight_extrema_invariant oneByOneGrid [(0, 0, 5)] oneWriteGrid
    (by decide) (by decide)
  refine ⟨by decide, ?_, ?_⟩
  · exact (h.2 (0, 0, 5) (by decide) (by decide) (by decide) (by decide)).1
  · exact (h.2 (0, 0, 5) (by decide) (by decide) (by decide) (by decide)).2

/-- C10: the scalar dimension setters only update the dimension fields and never
allocate the sample matrix; consequently, on a grid built by `MakeEsriGrid` whose
dimensions were set only through `SetNCols` and `SetNRows`, an in-range `SetHeight`
reaches the nil matrix and panics instead of writing a cell. -/
theorem setters_do_not_allocate :
    (∀ (g : ConcreteEsriGrid) (n : Int), g.SetNCols n = { g with ncols := n }) ∧
    (∀ (g : ConcreteEsriGrid) (n : Int), g.SetNRows n = { g with nrows := n }) ∧
    (∀ (nr nc row col : Int) (v : ℚ), 0 ≤ row → row < nr → 0 ≤ col → col < nc →
      ((MakeEsriGrid.SetNCols nc).SetNRows nr).SetHeight row col v = none) := by
  refine ⟨fun g n => rfl, fun g n => rfl, ?_⟩
  intro nr nc row col v h1 h2 h3 h4
  unfold ConcreteEsriGrid.SetHeight
  rw [if_neg (by simp only [ConcreteEsriGrid.SetNCols, ConcreteEsriGrid.SetNRows]; omega)]
  simp only [ConcreteEsriGrid.SetNCols, ConcreteEsriGrid.SetNRows, MakeEsriGrid]
  unfold setCell listGetI
  rw [if_neg (by omega)]
  simp

/-- C10 witness: the third part applied at a 1-by-1 setter-built grid and the
origin: the write panics on the absent matrix. -/
theorem setters_do_not_allocate_witness :
    ((MakeEsriGrid.SetNCols 1).SetNRows 1).SetHeight 0 0 7 = none :=
  setters_do_not_allocate.2.2 1 1 0 0 7 (by decide) (by decide) (by decide) (by decide)

/-- C9: the `Height` accessor performs no bounds check of its own.  On a grid
whose matrix matches its declared dimensions it is defined exactly on
`0 ≤ row < nrows` and `0 ≤ col < ncols`, and on the fresh grid (matrix absent) any
access reaches the out-of-bounds branch of the total embedding. -/
theorem height_no_bounds_check :
    (∀ g : ConcreteEsriGrid, GoodShape g → ∀ row col : Int,
      ((g.Height row col).isSome = true ↔
        (0 ≤ row ∧ row < g.nrows ∧ 0 ≤ col ∧ col < g.ncols))) ∧
    (∀ row col : Int, MakeEsriGrid.Height row col = none) := by
  constructor
  · intro g hshape row col
    unfold ConcreteEsriGrid.Height
    cases hr : listGetI g.height row with
    | none =>
      simp only [Option.isSome_none, Bool.false_eq_true, false_iff]
      intro hc
      have : (listGetI g.height row).isSome = true := by
        rw [listGetI_isSome]
        refine ⟨hc.1, ?_⟩
        rw [hshape.1]
        exact hc.2.1
      rw [hr] at this
      exact Bool.noConfusion this
    | some rowvals =>
      have hb := listGetI_bounds hr
      have hlen : (rowvals.length : Int) = g.ncols := hshape.2 rowvals (listGetI_mem hr)
      rw [listGetI_isSome]
      rw [hlen]
      constructor
      · intro hc
        refine ⟨hb.1, ?_, hc.1, hc.2⟩
        rw [← hshape.1]
        exact hb.2
      · intro hc
        exact ⟨hc.2.2.1, hc.2.2.2⟩
  · intro row col
    have hnone : listGetI MakeEsriGrid.height row = none := by
      show listGetI [] row = none
      unfold listGetI
      split
      · rfl
      · rfl
    unfold ConcreteEsriGrid.Height
    rw [hnone]

/-- C9 witness: the first part applied at the allocated 1-by-1 grid at the origin
(the access is defined), and the second at the fresh grid (the out-of-bounds
branch is reached). -/
theorem height_no_bounds_check_witness :
    (oneByOneGrid.Height 0 0).isSome = true ∧ MakeEsriGrid.Height 0 0 = none :=
  ⟨(height_no_bounds_check.1 oneByOneGrid (by decide) 0 0).mpr (by decide),
   height_no_bounds_check.2 0 0⟩

/-- C3: parsing the documented example input (six header lines then six data rows
of four columns) succeeds and yields the claimed dimensions, cell size, no-data
value, extrema and bottom-left sample. -/
theorem example_file_roundtrip :
    (readEsriGridFromFile MakeEsriGrid exampleFile).toOption.map
      (fun g => (g.Ncols, g.Nrows, g.CellSize, g.NoDataValue,
                 g.MaxHeight, g.MinHeight, g.Height 5 0)) =
      some (4, 6, 50, -9999, 100, 1, some 13) := by
  rfl

/-- C8 counterexample: not every kind of interior white space is collapsed to a
separator.  A tab between two letters survives `stripSpaces` unchanged and is not
a split point, so the line tokenizes as one token, while the same line with a
space tokenizes as two: the token sequence depends on the kind of white space. -/
theorem tab_not_collapsed :
    lineTokens (("a b").data) = [['a'], ['b']] ∧
    lineTokens (("a\tb").data) = [['a', '\t', 'b']] ∧
    lineTokens (("a\tb").data) ≠ lineTokens (("a b").data) := by
  decide

/-! ## Lemmas about header-line processing -/

theorem headerIntLine_tokenBad {l t : List Char}
    (h1 : (splitOnSpace (stripSpacesL l)).get? 1 = some t)
    (h2 : parseGoInt t = none) : headerIntLine l = GoResult.goError := by
  unfold headerIntLine
  simp only [h1, h2]

theorem headerIntLine_missing {l : List Char}
    (h1 : (splitOnSpace (stripSpacesL l)).get? 1 = none) :
    headerIntLine l = GoResult.goPanic := by
  unfold headerIntLine
  simp only [h1]

theorem headerFloatLine_tokenBad {l t : List Char}
    (h1 : (splitOnSpace (stripSpacesL l)).get? 1 = some t)
    (h2 : parseGoFloat t = none) : headerFloatLine l = GoResult.goError := by
  unfold headerFloatLine
  simp only [h1, h2]

theorem headerFloatLine_missing {l : List Char}
    (h1 : (splitOnSpace (stripSpacesL l)).get? 1 = none) :
    headerFloatLine l = GoResult.goPanic := by
  unfold headerFloatLine
  simp only [h1]

theorem allocMatrix_ok {nr nc : Int} (h1 : 0 ≤ nr) (h2 : 0 ≤ nc) :
    allocMatrix nr nc = some (List.replicate nr.toNat (List.replicate nc.toNat 0)) := by
  unfold allocMatrix
  rw [if_neg (by omega), if_neg (by omega)]

/-- C6 counterexample: a header line with a missing value field does not make
`ReadEsriGridFromFile` return an error to the caller: reading the one-line file
`ncols` panics with index out of range at `field[1]` (source line 375), which is
not a returned error. -/
theorem read_missing_header_field_panics :
    readEsriGridFromFile MakeEsriGrid [("ncols")] = GoResult.goPanic ∧
    readEsriGridFromFile MakeEsriGrid [("ncols")] ≠ GoResult.goError := by
  decide

/-- C6 amended: an unparsable numeric value token in any of the six header lines
(each earlier header line being well formed, and the declared dimensions being
non-negative where the matrix allocation lies in between) makes
`ReadEsriGridFromFile` abort and return an error; a header line whose value field
is missing instead aborts with an index-out-of-range panic.  In neither case is a
usable successful grid produced.  The twelve conjuncts cover the six header
positions, each with the unparsable-token and the missing-field outcome. -/
theorem header_malformation_aborts :
    (∀ (g : ConcreteEsriGrid) (l1 : List Char) (rest : List (List Char)) (t : List Char),
      (splitOnSpace (stripSpacesL l1)).get? 1 = some t → parseGoInt t = none →
      readLinesC g (l1 :: rest) = GoResult.goError) ∧
    (∀ (g : ConcreteEsriGrid) (l1 : List Char) (rest : List (List Char)),
      (splitOnSpace (stripSpacesL l1)).get? 1 = none →
      readLinesC g (l1 :: rest) = GoResult.goPanic) ∧
    (∀ (g : ConcreteEsriGrid) (l1 l2 : List Char) (rest : List (List Char))
        (n1 : Int) (t : List Char),
      headerIntLine l1 = GoResult.ok n1 →
      (splitOnSpace (stripSpacesL l2)).get? 1 = some t → parseGoInt t = none →
      readLinesC g (l1 :: l2 :: rest) = GoResult.goError) ∧
    (∀ (g : ConcreteEsriGrid) (l1 l2 : List Char) (rest : List (List Char)) (n1 : Int),
      headerIntLine l1 = GoResult.ok n1 →
      (splitOnSpace (stripSpacesL l2)).get? 1 = none →
      readLinesC g (l1 :: l2 :: rest) = GoResult.goPanic) ∧
    (∀ (g : ConcreteEsriGrid) (l1 l2 l3 : List Char) (rest : List (List Char))
        (n1 n2 : Int) (t : List Char),
      headerIntLine l1 = GoResult.ok n1 → headerIntLine l2 = GoResult.ok n2 →
      0 ≤ n1 → 0 ≤ n2 →
      (splitOnSpace (stripSpacesL l3)).get? 1 = some t → parseGoFloat t = none →
      readLinesC g (l1 :: l2 :: l3 :: rest) = GoResult.goError) ∧
    (∀ (g : ConcreteEsriGrid) (l1 l2 l3 : List Char) (rest : List (List Char)) (n1 n2 : Int),
      headerIntLine l1 = GoResult.ok n1 → headerIntLine l2 = GoResult.ok n2 →
      0 ≤ n1 → 0 ≤ n2 →
      (splitOnSpace (stripSpacesL l3)).get? 1 = none →
      readLinesC g (l1 :: l2 :: l3 :: rest) = GoResult.goPanic) ∧
    (∀ (g : ConcreteEsriGrid) (l1 l2 l3 l4 : List Char) (rest : List (List Char))
        (n1 n2 : Int) (q3 : ℚ) (t : List Char),
      headerIntLine l1 = GoResult.ok n1 → headerIntLine l2 = GoResult.ok n2 →
      0 ≤ n1 → 0 ≤ n2 → headerFloatLine l3 = GoResult.ok q3 →
      (splitOnSpace (stripSpacesL l4)).get? 1 = some t → parseGoFloat t = none →
      readLinesC g (l1 :: l2 :: l3 :: l4 :: rest) = GoResult.goError) ∧
    (∀ (g : ConcreteEsriGrid) (l1 l2 l3 l4 : List Char) (rest : List (List Char))
        (n1 n2 : Int) (q3 : ℚ),
      headerIntLine l1 = GoResult.ok n1 → headerIntLine l2 = GoResult.ok n2 →
      0 ≤ n1 → 0 ≤ n2 → headerFloatLine l3 = GoResult.ok q3 →
      (splitOnSpace (stripSpacesL l4)).get? 1 = none →
      readLinesC g (l1 :: l2 :: l3 :: l4 :: rest) = GoResult.goPanic) ∧
    (∀ (g : ConcreteEsriGrid) (l1 l2 l3 l4 l5 : List Char) (rest : List (List Char))
        (n1 n2 : Int) (q3 q4 : ℚ) (t : List Char),
      headerIntLine l1 = GoResult.ok n1 → headerIntLine l2 = GoResult.ok n2 →
      0 ≤ n1 → 0 ≤ n2 → headerFloatLine l3 = GoResult.ok q3 →
      headerFloatLine l4 = GoResult.ok q4 →
      (splitOnSpace (stripSpacesL l5)).get? 1 = some t → parseGoFloat t = none →
      readLinesC g (l1 :: l2 :: l3 :: l4 :: l5 :: rest) = GoResult.goError) ∧
    (∀ (g : ConcreteEsriGrid) (l1 l2 l3 l4 l5 : List Char) (rest : List (List Char))
        (n1 n2 : Int) (q3 q4 : ℚ),
      headerIntLine l1 = GoResult.ok n1 → headerIntLine l2 = GoResult.ok n2 →
      0 ≤ n1 → 0 ≤ n2 → headerFloatLine l3 = GoResult.ok q3 →
      headerFloatLine l4 = GoResult.ok q4 →
      (splitOnSpace (stripSpacesL l5)).get? 1 = none →
      readLinesC g (l1 :: l2 :: l3 :: l4 :: l5 :: rest) = GoResult.goPanic) ∧
    (∀ (g : ConcreteEsriGrid) (l1 l2 l3 l4 l5 l6 : List Char) (rest : List (List Char))
        (n1 n2 : Int) (q3 q4 q5 : ℚ) (t : List Char),
      headerIntLine l1 = GoResult.ok n1 → headerIntLine l2 = GoResult.ok n2 →
      0 ≤ n1 → 0 ≤ n2 → headerFloatLine l3 = GoResult.ok q3 →
      headerFloatLine l4 = GoResult.ok q4 → headerFloatLine l5 = GoResult.ok q5 →
      (splitOnSpace (stripSpacesL l6)).get? 1 = some t → parseGoFloat t = none →
      readLinesC g (l1 :: l2 :: l3 :: l4 :: l5 :: l6 :: rest) = GoResult.goError) ∧
    (∀ (g : ConcreteEsriGrid) (l1 l2 l3 l4 l5 l6 : List Char) (rest : List (List Char))
        (n1 n2 : Int) (q3 q4 q5 : ℚ),
      headerIntLine l1 = GoResult.ok n1 → headerIntLine l2 = GoResult.ok n2 →
      0 ≤ n1 → 0 ≤ n2 → headerFloatLine l3 = GoResult.ok q3 →
      headerFloatLine l4 = GoResult.ok q4 → headerFloatLine l5 = GoResult.ok q5 →
      (splitOnSpace (stripSpacesL l6)).get? 1 = none →
      readLinesC g (l1 :: l2 :: l3 :: l4 :: l5 :: l6 :: rest) = GoResult.goPanic) := by
  refine ⟨?_, ?_, ?_, ?_, ?_, ?_, ?_, ?_, ?_, ?_, ?_, ?_⟩
  · intro g l1 rest t hs hp
    unfold readLinesC readIntFromHeader
    simp only [headerIntLine_tokenBad hs hp]
  · intro g l1 rest hs
    unfold readLinesC readIntFromHeader
    simp only [headerIntLine_missing hs]
  · intro g l1 l2 rest n1 t h1 hs hp
    unfold readLinesC readIntFromHeader
    simp only [h1, headerIntLine_tokenBad hs hp]
  · intro g l1 l2 rest n1 h1 hs
    unfold readLinesC readIntFromHeader
    simp only [h1, headerIntLine_missing hs]
  · intro g l1 l2 l3 rest n1 n2 t h1 h2 hn1 hn2 hs hp
    unfold readLinesC readIntFromHeader readFloat32FromHeader
    simp only [h1, h2, allocMatrix_ok hn2 hn1, headerFloatLine_tokenBad hs hp]
  · intro g l1 l2 l3 rest n1 n2 h1 h2 hn1 hn2 hs
    unfold readLinesC readIntFromHeader readFloat32FromHeader
    simp only [h1, h2, allocMatrix_ok hn2 hn1, headerFloatLine_missing hs]
  · intro g l1 l2 l3 l4 rest n1 n2 q3 t h1 h2 hn1 hn2 h3 hs hp
    unfold readLinesC readIntFromHeader readFloat32FromHeader
    simp only [h1, h2, allocMatrix_ok hn2 hn1, h3, headerFloatLine_tokenBad hs hp]
  · intro g l1 l2 l3 l4 rest n1 n2 q3 h1 h2 hn1 hn2 h3 hs
    unfold readLinesC readIntFromHeader readFloat32FromHeader
    simp only [h1, h2, allocMatrix_ok hn2 hn1, h3, headerFloatLine_missing hs]
  · intro g l1 l2 l3 l4 l5 rest n1 n2 q3 q4 t h1 h2 hn1 hn2 h3 h4 hs hp
    unfold readLinesC readIntFromHeader readFloat32FromHeader
    simp only [h1, h2, allocMatrix_ok hn2 hn1, h3, h4, headerFloatLine_tokenBad hs hp]
  · intro g l1 l2 l3 l4 l5 rest n1 n2 q3 q4 h1 h2 hn1 hn2 h3 h4 hs
    unfold readLinesC readIntFromHeader readFloat32FromHeader
    simp only [h1, h2, allocMatrix_ok hn2 hn1, h3, h4, headerFloatLine_missing hs]
  · intro g l1 l2 l3 l4 l5 l6 rest n1 n2 q3 q4 q5 t h1 h2 hn1 hn2 h3 h4 h5 hs hp
    unfold readLinesC readIntFromHeader readFloat32FromHeader
    simp only [h1, h2, allocMatrix_ok hn2 hn1, h3, h4, h5, headerFloatLine_tokenBad hs hp]
  · intro g l1 l2 l3 l4 l5 l6 rest n1 n2 q3 q4 q5 h1 h2 hn1 hn2 h3 h4 h5 hs
    unfold readLinesC readIntFromHeader readFloat32FromHeader
    simp only [h1, h2, allocMatrix_ok hn2 hn1, h3, h4, h5, headerFloatLine_missing hs]

/-- C6 amended, witness: the first conjunct applied to the one-line file
`ncols abc` (unparsable token, returned error) and the fourth applied to the
two-line file `ncols 4`, `nrows` (missing value field on the second line, panic). -/
theorem header_malformation_aborts_witness :
    readLinesC MakeEsriGrid [("ncols abc").data] = GoResult.goError ∧
    readLinesC MakeEsriGrid [("ncols 4").data, ("nrows").data] = GoResult.goPanic := by
  constructor
  · exact header_malformation_aborts.1 MakeEsriGrid (("ncols abc").data) []
      (['a', 'b', 'c']) (by decide) (by decide)
  · exact header_malformation_aborts.2.2.2.1 MakeEsriGrid (("ncols 4").data)
      (("nrows").data) [] 4 (by decide) (by decide)

/-! ## Lemmas about the data-row write loop -/

theorem parseAll_length : ∀ {toks : List (List Char)} {vs : List ℚ},
    parseAll toks = some vs → vs.length = toks.length := by
  intro toks
  induction toks with
  | nil =>
    intro vs h
    simp only [parseAll] at h
    injection h with h
    subst h
    rfl
  | cons t ts ih =>
    intro vs h
    simp only [parseAll] at h
    cases hv : parseGoFloat t with
    | none =>
      simp only [hv] at h
      exact Option.noConfusion h
    | some v =>
      cases hvs : parseAll ts with
      | none =>
        simp only [hv, hvs] at h
        exact Option.noConfusion h
      | some vs2 =>
        simp only [hv, hvs] at h
        injection h with h
        subst h
        simp only [List.length_cons, ih hvs]

theorem parseAll_cons {t : List Char} {ts : List (List Char)} {vs : List ℚ}
    (h : parseAll (t :: ts) = some vs) :
    ∃ v vs2, parseGoFloat t = some v ∧ parseAll ts = some vs2 ∧ vs = v :: vs2 := by
  simp only [parseAll] at h
  cases hv : parseGoFloat t with
  | none =>
    simp only [hv] at h
    exact Option.noConfusion h
  | some v =>
    cases hvs : parseAll ts with
    | none =>
      simp only [hv, hvs] at h
      exact Option.noConfusion h
    | some vs2 =>
      simp only [hv, hvs] at h
      injection h with h
      exact ⟨v, vs2, rfl, rfl, h.symm⟩

theorem take_succ_set {α : Type} (a : α) :
    ∀ (l : List α) (n : Nat), n < l.length → (l.set n a).take (n + 1) = l.take n ++ [a] := by
  intro l
  induction l with
  | nil =>
    intro n h
    simp at h
  | cons x xs ih =>
    intro n h
    cases n with
    | zero => rfl
    | succ n =>
      simp only [List.set_cons_succ, List.take_succ_cons, List.cons_append]
      rw [ih n (by simpa using h)]

theorem writeRowAux_ok :
    ∀ (toks : List (List Char)) (ceg : ConcreteEsriGrid) (row col : Int)
      (vs : List ℚ) (old : List ℚ),
      parseAll toks = some vs →
      GoodShape ceg →
      0 ≤ row → row < ceg.nrows →
      0 ≤ col →
      listGetI ceg.height row = some old →
      col + (toks.length : Int) = ceg.ncols →
      ∃ ceg2, writeRowAux ceg row toks col = GoResult.ok ceg2 ∧
        ceg2.ncols = ceg.ncols ∧ ceg2.nrows = ceg.nrows ∧
        ceg2.noDataValue = ceg.noDataValue ∧ GoodShape ceg2 ∧
        (∀ r2 : Int, r2 ≠ row → listGetI ceg2.height r2 = listGetI ceg.height r2) ∧
        listGetI ceg2.height row = some (old.take col.toNat ++ vs) := by
  intro toks
  induction toks with
  | nil =>
    intro ceg row col vs old hp hshape hr0 hrn hc0 hold hcols
    simp only [parseAll] at hp
    injection hp with hp
    subst hp
    refine ⟨ceg, rfl, rfl, rfl, rfl, hshape, fun r2 _ => rfl, ?_⟩
    have hlen : (old.length : Int) = ceg.ncols := hshape.2 old (listGetI_mem hold)
    have htake : col.toNat = old.length := by
      simp only [List.length_nil, Nat.cast_zero, add_zero] at hcols
      omega
    rw [htake, List.take_length, List.append_nil]
    exact hold
  | cons t ts ih =>
    intro ceg row col vs old hp hshape hr0 hrn hc0 hold hcols
    obtain ⟨v, vs2, hv, hvs, rfl⟩ := parseAll_cons hp
    have hccast : col + ((ts.length : Int) + 1) = ceg.ncols := by
      simp only [List.length_cons] at hcols
      push_cast at hcols
      omega
    have hcol_lt : col < ceg.ncols := by omega
    have hlen : (old.length : Int) = ceg.ncols := hshape.2 old (listGetI_mem hold)
    have hcl : col.toNat < old.length := by omega
    have hsc : setCell ceg.height row col v =
        some (ceg.height.set row.toNat (old.set col.toNat v)) :=
      setCell_eq v hold hc0 hcl
    have hguard : ¬(row ≥ ceg.nrows ∨ col ≥ ceg.ncols) := by omega
    have hex : ∃ ceg2, ceg.SetHeight row col v = some ceg2 := by
      rw [setHeight_eq_of_in_range ceg row col v hguard]
      simp only [hsc]
      split
      · exact ⟨_, rfl⟩
      · exact ⟨_, rfl⟩
    obtain ⟨ceg2, hset⟩ := hex
    have hfield := setHeight_fields hset
    have hmat := setHeight_matrix hguard hset
    rw [hsc] at hmat
    injection hmat with hmat
    have hshape2 : GoodShape ceg2 := by
      constructor
      · rw [← hmat, setCell_length hsc, hshape.1, hfield.2.1]
      · intro r2 h2
        rw [hfield.1]
        refine setCell_goodRows hsc hshape.2 r2 ?_
        rw [hmat]
        exact h2
    have hold2 : listGetI ceg2.height row = some (old.set col.toNat v) := by
      rw [← hmat]
      exact setCell_get_eq hold hc0 hcl hsc
    obtain ⟨ceg3, hrun, hncols, hnrows, hnd, hshape3, hothers, hrow⟩ :=
      ih ceg2 row (col + 1) vs2 (old.set col.toNat v) hvs hshape2 hr0
        (by rw [hfield.2.1]; exact hrn) (by omega) hold2
        (by rw [hfield.1]; omega)
    refine ⟨ceg3, ?_, ?_, ?_, ?_, hshape3, ?_, ?_⟩
    · simp only [writeRowAux, hv, hset]
      exact hrun
    · rw [hncols, hfield.1]
    · rw [hnrows, hfield.2.1]
    · rw [hnd, hfield.2.2]
    · intro r2 h2
      rw [hothers r2 h2, ← hmat, setCell_get_ne hsc r2 h2]
    · rw [hrow]
      have h1 : (col + 1).toNat = col.toNat + 1 := by omega
      rw [h1, take_succ_set v old col.toNat hcl]
      simp only [List.append_assoc, List.singleton_append]

theorem dataLoop_master :
    ∀ (lines : List (List Char)) (ceg : ConcreteEsriGrid) (row : Int),
      GoodShape ceg →
      0 ≤ row →
      row + (lines.length : Int) ≤ ceg.nrows →
      (∀ l ∈ lines, ((splitOnSpace (stripSpacesL l)).length : Int) = ceg.ncols →
        (parseAll (splitOnSpace (stripSpacesL l))).isSome = true) →
      ∃ g, dataLoop ceg lines row (6 + row) (ceg.nrows + 6) = GoResult.ok g ∧
        g.ncols = ceg.ncols ∧ g.nrows = ceg.nrows ∧ g.noDataValue = ceg.noDataValue ∧
        GoodShape g ∧
        (∀ r2 : Int, r2 < row → listGetI g.height r2 = listGetI ceg.height r2) ∧
        (∀ (pre : List (List Char)) (l2 : List Char) (post : List (List Char)),
          lines = pre ++ l2 :: post →
          (((splitOnSpace (stripSpacesL l2)).length : Int) ≠ ceg.ncols →
            listGetI g.height (row + (pre.length : Int)) =
              listGetI ceg.height (row + (pre.length : Int))) ∧
          (∀ vs, parseAll (splitOnSpace (stripSpacesL l2)) = some vs →
            ((splitOnSpace (stripSpacesL l2)).length : Int) = ceg.ncols →
            listGetI g.height (row + (pre.length : Int)) = some vs)) := by
  intro lines
  induction lines with
  | nil =>
    intro ceg row hshape hr0 hle hwf
    refine ⟨ceg, by simp only [dataLoop], rfl, rfl, rfl, hshape, fun r2 _ => rfl, ?_⟩
    intro pre l2 post hdec
    exact absurd hdec (by cases pre <;> simp)
  | cons l ls ih =>
    intro ceg row hshape hr0 hle hwf
    have hlen : row + (ls.length : Int) + 1 ≤ ceg.nrows := by
      simp only [List.length_cons] at hle
      push_cast at hle
      omega
    have hrow_lt : row < ceg.nrows := by
      have : (0 : Int) ≤ (ls.length : Int) := by positivity
      omega
    have hbreak : ¬(6 + row + 1 > ceg.nrows + 6) := by omega
    by_cases hcnt : ((splitOnSpace (stripSpacesL l)).length : Int) = ceg.ncols
    · -- the line is well formed for this width: it is scanned and written
      obtain ⟨vs, hvs⟩ :=
        Option.isSome_iff_exists.mp (hwf l (List.mem_cons_self l ls) hcnt)
      have hsome : (listGetI ceg.height row).isSome = true := by
        rw [listGetI_isSome]
        refine ⟨hr0, ?_⟩
        rw [hshape.1]
        exact hrow_lt
      obtain ⟨old, hold⟩ := Option.isSome_iff_exists.mp hsome
      obtain ⟨ceg2, hwr, hwn, hwr2, hwnd, hwshape, hwothers, hwrow⟩ :=
        writeRowAux_ok (splitOnSpace (stripSpacesL l)) ceg row 0 vs old hvs hshape
          hr0 hrow_lt (by omega) hold (by omega)
      obtain ⟨g, hgrun, hgn, hgr, hgnd, hgs, hpres, hdec⟩ :=
        ih ceg2 (row + 1) hwshape (by omega) (by rw [hwr2]; omega)
          (by
            intro l2 hl2 hl2len
            rw [hwn] at hl2len
            exact hwf l2 (List.mem_cons_of_mem l hl2) hl2len)
      have hgrun2 : dataLoop ceg2 ls (row + 1) (6 + row + 1) (ceg.nrows + 6) =
          GoResult.ok g := by
        rw [show (6 : Int) + row + 1 = 6 + (row + 1) from by ring, ← hwr2]
        exact hgrun
      refine ⟨g, ?_, ?_, ?_, ?_, hgs, ?_, ?_⟩
      · simp only [dataLoop]
        rw [if_neg hbreak, if_neg (by omega), if_neg (by omega)]
        simp only [hwr]
        exact hgrun2
      · rw [hgn, hwn]
      · rw [hgr, hwr2]
      · rw [hgnd, hwnd]
      · intro r2 h2
        rw [hpres r2 (by omega), hwothers r2 (by omega)]
      · intro pre l2 post hdec2
        cases pre with
        | nil =>
          rw [List.nil_append] at hdec2
          injection hdec2 with hl2 hpost
          subst hl2
          subst hpost
          constructor
          · intro hne
            exact absurd hcnt hne
          · intro vs2 hp2 hlen2
            rw [hvs] at hp2
            injection hp2 with hp2
            subst hp2
            have hidx : row + ((List.length ([] : List (List Char)) : Nat) : Int) = row := by
              simp
            rw [hidx, hpres row (by omega), hwrow]
            simp
        | cons p pre2 =>
          rw [List.cons_append] at hdec2
          injection hdec2 with hp hrest
          have hidx : row + ((p :: pre2).length : Int) = row + 1 + (pre2.length : Int) := by
            simp only [List.length_cons]
            push_cast
            ring
          have hd := hdec pre2 l2 post hrest
          have hne : row + 1 + (pre2.length : Int) ≠ row := by
            have : (0 : Int) ≤ (pre2.length : Int) := by positivity
            omega
          constructor
          · intro hcnt2
            rw [hidx, (hd.1 (by rw [hwn]; exact hcnt2)), hwothers _ hne]
          · intro vs2 hp2 hlen2
            rw [hidx]
            exact hd.2 vs2 hp2 (by rw [hwn]; exact hlen2)
    · -- wrong field count: the line is skipped
      obtain ⟨g, hgrun, hgn, hgr, hgnd, hgs, hpres, hdec⟩ :=
        ih ceg (row + 1) hshape (by omega) (by omega)
          (fun l2 hl2 => hwf l2 (List.mem_cons_of_mem l hl2))
      have hgrun2 : dataLoop ceg ls (row + 1) (6 + row + 1) (ceg.nrows + 6) =
          GoResult.ok g := by
        rw [show (6 : Int) + row + 1 = 6 + (row + 1) from by ring]
        exact hgrun
      refine ⟨g, ?_, hgn, hgr, hgnd, hgs, ?_, ?_⟩
      · simp only [dataLoop]
        rw [if_neg hbreak]
        rcases lt_or_gt_of_ne hcnt with hlt | hgt
        · rw [if_neg (by omega), if_pos hlt]
          exact hgrun2
        · rw [if_pos hgt]
          exact hgrun2
      · intro r2 h2
        exact hpres r2 (by omega)
      · intro pre l2 post hdec2
        cases pre with
        | nil =>
          rw [List.nil_append] at hdec2
          injection hdec2 with hl2 hpost
          subst hl2
          subst hpost
          have hidx : row + ((List.length ([] : List (List Char)) : Nat) : Int) = row := by
            simp
          constructor
          · intro _
            rw [hidx]
            exact hpres row (by omega)
          · intro vs2 hp2 hlen2
            exact absurd hlen2 hcnt
        | cons p pre2 =>
          rw [List.cons_append] at hdec2
          injection hdec2 with hp hrest
          have hidx : row + ((p :: pre2).length : Int) = row + 1 + (pre2.length : Int) := by
            simp only [List.length_cons]
            push_cast
            ring
          have hd := hdec pre2 l2 post hrest
          rw [hidx]
          exact hd

theorem readLinesC_headers_ok {g : ConcreteEsriGrid} {l1 l2 l3 l4 l5 l6 : List Char}
    {rest : List (List Char)} {n1 n2 : Int} {q3 q4 q5 q6 : ℚ}
    (h1 : headerIntLine l1 = GoResult.ok n1) (h2 : headerIntLine l2 = GoResult.ok n2)
    (hn1 : 0 ≤ n1) (hn2 : 0 ≤ n2)
    (h3 : headerFloatLine l3 = GoResult.ok q3) (h4 : headerFloatLine l4 = GoResult.ok q4)
    (h5 : headerFloatLine l5 = GoResult.ok q5) (h6 : headerFloatLine l6 = GoResult.ok q6) :
    readLinesC g (l1 :: l2 :: l3 :: l4 :: l5 :: l6 :: rest) =
      dataLoop
        { g with
            ncols := n1, nrows := n2,
            height := List.replicate n2.toNat (List.replicate n1.toNat 0),
            xllcorner := q3, yllcorner := q4, cellsize := q5, noDataValue := q6 }
        rest 0 6 (n2 + 6) := by
  unfold readLinesC readIntFromHeader readFloat32FromHeader
  simp only [h1, h2, allocMatrix_ok hn2 hn1, h3, h4, h5, h6]

/-- C4: for a well-formed input (six header lines whose value tokens scan as the
declared numbers, followed by data lines that all strip-split into exactly the
declared number of columns, each token scanning as a number, with exactly as many
data lines as the declared row count, at least one), parsing succeeds, the matrix
has exactly `nrows` rows of `ncols` values each, and `Height(nrows-1, 0)` is the
first token of the last data line read as a number. -/
theorem wellformed_parse_populates
    (l1 l2 l3 l4 l5 l6 : String) (dataLines : List String)
    (ncolsV nrowsV : Int) (xV yV csV ndV : ℚ)
    (H1 : headerIntLine l1.data = GoResult.ok ncolsV)
    (H2 : headerIntLine l2.data = GoResult.ok nrowsV)
    (H3 : headerFloatLine l3.data = GoResult.ok xV)
    (H4 : headerFloatLine l4.data = GoResult.ok yV)
    (H5 : headerFloatLine l5.data = GoResult.ok csV)
    (H6 : headerFloatLine l6.data = GoResult.ok ndV)
    (Hlen : (dataLines.length : Int) = nrowsV)
    (Hpos : 0 < nrowsV)
    (Hgood : ∀ l ∈ dataLines,
      ((splitOnSpace (stripSpacesL l.data)).length : Int) = ncolsV ∧
      (parseAll (splitOnSpace (stripSpacesL l.data))).isSome = true) :
    ∃ g, readEsriGridFromFile MakeEsriGrid
        (l1 :: l2 :: l3 :: l4 :: l5 :: l6 :: dataLines) = GoResult.ok g ∧
      (g.height.length : Int) = nrowsV ∧
      (∀ r ∈ g.height, (r.length : Int) = ncolsV) ∧
      (∀ (pre : List String) (lastL : String), dataLines = pre ++ [lastL] →
        ∀ t ts, splitOnSpace (stripSpacesL lastL.data) = t :: ts →
          g.Height (nrowsV - 1) 0 = parseGoFloat t) := by
  have hn2 : 0 ≤ nrowsV := by omega
  have hne : dataLines ≠ [] := by
    intro h
    rw [h] at Hlen
    simp only [List.length_nil, Nat.cast_zero] at Hlen
    omega
  obtain ⟨l0, hl0⟩ := List.exists_mem_of_ne_nil dataLines hne
  have hn1 : 0 ≤ ncolsV := by
    rw [← (Hgood l0 hl0).1]
    positivity
  set ceg0 : ConcreteEsriGrid :=
    { MakeEsriGrid with
        ncols := ncolsV, nrows := nrowsV,
        height := List.replicate nrowsV.toNat (List.replicate ncolsV.toNat 0),
        xllcorner := xV, yllcorner := yV, cellsize := csV, noDataValue := ndV } with hceg0
  have hshape0 : GoodShape ceg0 := by
    constructor
    · rw [hceg0]
      simp only [List.length_replicate]
      omega
    · intro r hr
      rw [hceg0] at hr
      simp only at hr
      rw [List.eq_of_mem_replicate hr]
      simp only [List.length_replicate]
      omega
  obtain ⟨g, hgrun, hgn, hgr, hgnd, hgs, hpres, hdec⟩ :=
    dataLoop_master (dataLines.map String.data) ceg0 0 hshape0 (by omega)
      (by
        rw [List.length_map]
        simp only [hceg0]
        omega)
      (by
        intro l2 hl2 hl2len
        obtain ⟨ls, hls, rfl⟩ := List.mem_map.mp hl2
        exact (Hgood ls hls).2)
  refine ⟨g, ?_, ?_, ?_, ?_⟩
  · unfold readEsriGridFromFile
    simp only [List.map_cons]
    rw [readLinesC_headers_ok H1 H2 hn1 hn2 H3 H4 H5 H6]
    exact hgrun
  · rw [hgs.1, hgr, hceg0]
  · intro r hr
    rw [hgs.2 r hr, hgn, hceg0]
  · intro pre lastL hsplit t ts htok
    have hmemLast : lastL ∈ dataLines := by
      rw [hsplit]
      exact List.mem_append_right pre (List.mem_cons_self lastL [])
    obtain ⟨vsLast, hvsLast⟩ :=
      Option.isSome_iff_exists.mp (Hgood lastL hmemLast).2
    have hmapdec : dataLines.map String.data =
        (pre.map String.data) ++ lastL.data :: [] := by
      rw [hsplit, List.map_append, List.map_cons, List.map_nil]
    have hd := (hdec (pre.map String.data) lastL.data [] hmapdec).2 vsLast hvsLast
      (Hgood lastL hmemLast).1
    have hplen : (pre.length : Int) = nrowsV - 1 := by
      have : dataLines.length = pre.length + 1 := by
        rw [hsplit, List.length_append, List.length_cons, List.length_nil]
      rw [this] at Hlen
      push_cast at Hlen
      omega
    have hidx : (0 : Int) + ((pre.map String.data).length : Int) = nrowsV - 1 := by
      rw [List.length_map]
      omega
    rw [hidx] at hd
    unfold ConcreteEsriGrid.Height
    rw [hd]
    rw [htok] at hvsLast
    obtain ⟨v, vs2, hv, hvs2, rfl⟩ := parseAll_cons hvsLast
    rw [hv]
    rfl

/-- C4 witness: a concrete two-row, one-column well-formed file; its parse
succeeds, fills two rows of one value and its bottom-left sample is the first
token of the last line. -/
theorem wellformed_parse_populates_witness :
    ∃ g, readEsriGridFromFile MakeEsriGrid
        [("ncols 1"), ("nrows 2"), ("xllcorner 0"), ("yllcorner 0"), ("cellsize 1"),
         ("NODATA_value -9999"), ("3"), ("7")] = GoResult.ok g ∧
      (g.height.length : Int) = 2 ∧
      (∀ r ∈ g.height, (r.length : Int) = 1) ∧
      (∀ (pre : List String) (lastL : String), [("3"), ("7")] = pre ++ [lastL] →
        ∀ t ts, splitOnSpace (stripSpacesL lastL.data) = t :: ts →
          g.Height (2 - 1) 0 = parseGoFloat t) :=
  wellformed_parse_populates ("ncols 1") ("nrows 2") ("xllcorner 0") ("yllcorner 0")
    ("cellsize 1") ("NODATA_value -9999") [("3"), ("7")] 1 2 0 0 1 (-9999)
    (by decide) (by decide) (by decide) (by decide) (by decide) (by decide)
    (by decide) (by decide) (by decide)

theorem listGetI_replicate {α : Type} (n : Nat) (a : α) {i : Int}
    (h0 : 0 ≤ i) (hlt : i < (n : Int)) :
    listGetI (List.replicate n a) i = some a := by
  rw [listGetI_of_toNat h0]
  rw [List.get?_eq_getElem?, List.getElem?_eq_getElem (by simpa using (by omega : i.toNat < n))]
  simp

/-- C7: a data line whose token count after normalization differs from the declared
column count is skipped without aborting the parse: with well-formed headers and
all other data lines well formed, `ReadEsriGridFromFile` still returns success and
the skipped line's row keeps its default zero values. -/
theorem short_data_line_skipped
    (l1 l2 l3 l4 l5 l6 : String) (pre : List String) (bad : String) (post : List String)
    (ncolsV nrowsV : Int) (xV yV csV ndV : ℚ)
    (H1 : headerIntLine l1.data = GoResult.ok ncolsV)
    (H2 : headerIntLine l2.data = GoResult.ok nrowsV)
    (H3 : headerFloatLine l3.data = GoResult.ok xV)
    (H4 : headerFloatLine l4.data = GoResult.ok yV)
    (H5 : headerFloatLine l5.data = GoResult.ok csV)
    (H6 : headerFloatLine l6.data = GoResult.ok ndV)
    (Hlen : (((pre ++ bad :: post).length : Nat) : Int) = nrowsV)
    (Hnc : 0 ≤ ncolsV)
    (Hbad : ((splitOnSpace (stripSpacesL bad.data)).length : Int) ≠ ncolsV)
    (Hgood : ∀ l ∈ pre ++ post,
      ((splitOnSpace (stripSpacesL l.data)).length : Int) = ncolsV →
      (parseAll (splitOnSpace (stripSpacesL l.data))).isSome = true) :
    ∃ g, readEsriGridFromFile MakeEsriGrid
        (l1 :: l2 :: l3 :: l4 :: l5 :: l6 :: (pre ++ bad :: post)) = GoResult.ok g ∧
      listGetI g.height (pre.length : Int) = some (List.replicate ncolsV.toNat 0) ∧
      (∀ c : Int, 0 ≤ c → c < ncolsV → g.Height (pre.length : Int) c = some 0) := by
  have hlens : (pre.length : Int) + (post.length : Int) + 1 = nrowsV := by
    rw [← Hlen, List.length_append, List.length_cons]
    push_cast
    ring
  have hn2 : 0 ≤ nrowsV := by
    have h1 : (0 : Int) ≤ (pre.length : Int) := by positivity
    have h2 : (0 : Int) ≤ (post.length : Int) := by positivity
    omega
  set ceg0 : ConcreteEsriGrid :=
    { MakeEsriGrid with
        ncols := ncolsV, nrows := nrowsV,
        height := List.replicate nrowsV.toNat (List.replicate ncolsV.toNat 0),
        xllcorner := xV, yllcorner := yV, cellsize := csV, noDataValue := ndV } with hceg0
  have hshape0 : GoodShape ceg0 := by
    constructor
    · rw [hceg0]
      simp only [List.length_replicate]
      omega
    · intro r hr
      rw [hceg0] at hr
      simp only at hr
      rw [List.eq_of_mem_replicate hr]
      simp only [List.length_replicate]
      omega
  obtain ⟨g, hgrun, hgn, hgr, hgnd, hgs, hpres, hdec⟩ :=
    dataLoop_master ((pre ++ bad :: post).map String.data) ceg0 0 hshape0 (by omega)
      (by
        rw [List.length_map]
        simp only [hceg0]
        omega)
      (by
        intro lx hlx hlxlen
        obtain ⟨ls, hls, rfl⟩ := List.mem_map.mp hlx
        rcases List.mem_append.mp hls with hmem | hmem
        · exact Hgood ls (List.mem_append_left post hmem) hlxlen
        · rcases List.mem_cons.mp hmem with rfl | hmem2
          · rw [hceg0] at hlxlen
            exact absurd hlxlen Hbad
          · exact Hgood ls (List.mem_append_right pre hmem2) hlxlen)
  have hmapdec : (pre ++ bad :: post).map String.data =
      (pre.map String.data) ++ bad.data :: (post.map String.data) := by
    rw [List.map_append, List.map_cons]
  have hskip := (hdec (pre.map String.data) bad.data (post.map String.data) hmapdec).1
    (by rw [hceg0]; exact Hbad)
  have hplt : (pre.length : Int) < nrowsV := by
    have h2 : (0 : Int) ≤ (post.length : Int) := by positivity
    omega
  have hp0 : (0 : Int) ≤ (pre.length : Int) := by positivity
  have hidx : (0 : Int) + ((pre.map String.data).length : Int) = (pre.length : Int) := by
    rw [List.length_map]
    ring
  rw [hidx] at hskip
  have hinit : listGetI ceg0.height (pre.length : Int) =
      some (List.replicate ncolsV.toNat 0) := by
    rw [hceg0]
    exact listGetI_replicate nrowsV.toNat (List.replicate ncolsV.toNat 0) hp0 (by omega)
  have hcell : listGetI g.height (pre.length : Int) =
      some (List.replicate ncolsV.toNat 0) := by
    rw [hskip]
    exact hinit
  refine ⟨g, ?_, hcell, ?_⟩
  · unfold readEsriGridFromFile
    simp only [List.map_cons]
    rw [readLinesC_headers_ok H1 H2 Hnc hn2 H3 H4 H5 H6]
    exact hgrun
  · intro c hc0 hclt
    unfold ConcreteEsriGrid.Height
    rw [hcell]
    exact listGetI_replicate ncolsV.toNat 0 hc0 (by omega)

/-- C7 witness: a 2-by-2 grid file whose second data line has a single token; the
parse succeeds and the second row keeps its default zeros. -/
theorem short_data_line_skipped_witness :
    ∃ g, readEsriGridFromFile MakeEsriGrid
        (("ncols 2") :: ("nrows 2") :: ("xllcorner 0") :: ("yllcorner 0") ::
          ("cellsize 1") :: ("NODATA_value -9999") :: ([("1 2")] ++ ("3") :: [])) =
        GoResult.ok g ∧
      listGetI g.height ((1 : Nat) : Int) = some (List.replicate (2 : Int).toNat 0) ∧
      (∀ c : Int, 0 ≤ c → c < 2 → g.Height ((1 : Nat) : Int) c = some 0) := by
  have h := short_data_line_skipped ("ncols 2") ("nrows 2") ("xllcorner 0")
    ("yllcorner 0") ("cellsize 1") ("NODATA_value -9999") [("1 2")] ("3") [] 2 2
    0 0 1 (-9999) (by decide) (by decide) (by decide) (by decide) (by decide)
    (by decide) (by decide) (by decide) (by decide) (by decide)
  obtain ⟨g, h1, h2, h3⟩ := h
  exact ⟨g, h1, by simpa using h2, by simpa using h3⟩

/-! ## Lemmas about white-space normalization and tokenizing -/

theorem goIsSpace_space : goIsSpace ' ' = true := rfl

theorem dropWhile_replicate_space (a : Nat) (l : List Char) :
    (List.replicate a ' ' ++ l).dropWhile goIsSpace = l.dropWhile goIsSpace := by
  induction a with
  | zero => rfl
  | succ n ih =>
    rw [List.replicate_succ, List.cons_append]
    simp only [List.dropWhile_cons, goIsSpace_space, if_true]
    exact ih

theorem dropWhile_nonspace_head {c : Char} (hc : goIsSpace c = false) (l : List Char) :
    (c :: l).dropWhile goIsSpace = c :: l := by
  simp only [List.dropWhile_cons, hc]
  rfl

theorem trimSpace_padded (a b : Nat) {s : List Char} {c1 c2 : Char} {s1 s2 : List Char}
    (hhead : s = c1 :: s1) (hrev : s.reverse = c2 :: s2)
    (h1 : goIsSpace c1 = false) (h2 : goIsSpace c2 = false) :
    trimSpace (List.replicate a ' ' ++ s ++ List.replicate b ' ') = s := by
  unfold trimSpace
  rw [List.append_assoc, dropWhile_replicate_space]
  have hd1 : (s ++ List.replicate b ' ').dropWhile goIsSpace = s ++ List.replicate b ' ' := by
    rw [hhead, List.cons_append]
    exact dropWhile_nonspace_head h1 _
  rw [hd1, List.reverse_append, List.reverse_replicate, dropWhile_replicate_space]
  have hd2 : (s.reverse).dropWhile goIsSpace = s.reverse := by
    rw [hrev]
    exact dropWhile_nonspace_head h2 _
  rw [hd2, List.reverse_reverse]

theorem sepJoin_cons (c : Char) (t : List Char) (rest : List (Nat × List Char)) :
    ∃ u, sepJoin (c :: t) rest = c :: u := by
  cases rest with
  | nil => exact ⟨t, rfl⟩
  | cons p rest2 =>
    refine ⟨t ++ List.replicate (p.1 + 1) ' ' ++ sepJoin p.2 rest2, ?_⟩
    simp only [sepJoin, List.cons_append, List.append_assoc]

theorem sepJoin_rev_head : ∀ (rest : List (Nat × List Char)) (t : List Char),
    noSpaceTok t → (∀ p ∈ rest, noSpaceTok p.2) →
    ∃ c u, (sepJoin t rest).reverse = c :: u ∧ goIsSpace c = false := by
  intro rest
  induction rest with
  | nil =>
    intro t ht _
    cases hr : t.reverse with
    | nil =>
      have : t = [] := by
        have := congrArg List.reverse hr
        simpa using this
      exact absurd this ht.1
    | cons c u =>
      refine ⟨c, u, hr, ht.2 c ?_⟩
      have hmem : c ∈ t.reverse := by
        rw [hr]
        exact List.mem_cons_self c u
      simpa [List.mem_reverse] using hmem
  | cons p rest2 ih =>
    intro t ht hall
    obtain ⟨c, u, hcu, hc⟩ := ih p.2 (hall p (List.mem_cons_self p rest2))
      (fun q hq => hall q (List.mem_cons_of_mem p hq))
    refine ⟨c, u ++ (t ++ List.replicate (p.1 + 1) ' ').reverse, ?_, hc⟩
    show (sepJoin t (p :: rest2)).reverse = _
    simp only [sepJoin]
    rw [List.reverse_append, hcu, List.cons_append]

theorem nonspace_of_noSpace {t : List Char} (h : ∀ c ∈ t, goIsSpace c = false) :
    ∀ c ∈ t, c ≠ ' ' := by
  intro c hc heq
  have hf := h c hc
  rw [heq] at hf
  exact absurd hf (by decide)

theorem collapseAux_cons_nonspace (b : Bool) {c : Char} (hc : ¬(c = ' ')) (l : List Char) :
    collapseAux b (c :: l) = c :: collapseAux false l := by
  cases b <;> simp only [collapseAux, if_neg hc]

theorem collapseAux_true_cons_space (l : List Char) :
    collapseAux true (' ' :: l) = collapseAux true l := rfl

theorem collapseAux_false_cons_space (l : List Char) :
    collapseAux false (' ' :: l) = ' ' :: collapseAux true l := rfl

theorem collapseAux_nil (b : Bool) : collapseAux b [] = [] := by
  cases b <;> rfl

theorem collapseAux_nonspace : ∀ (t : List Char), (∀ c ∈ t, c ≠ ' ') →
    ∀ u, collapseAux false (t ++ u) = t ++ collapseAux false u := by
  intro t
  induction t with
  | nil =>
    intro _ u
    rfl
  | cons c t2 ih =>
    intro h u
    have hc : ¬(c = ' ') := h c (List.mem_cons_self c t2)
    rw [List.cons_append, collapseAux_cons_nonspace false hc, List.cons_append,
      ih (fun d hd => h d (List.mem_cons_of_mem c hd)) u]

theorem collapseAux_true_replicate : ∀ (k : Nat) (u : List Char),
    collapseAux true (List.replicate k ' ' ++ u) = collapseAux true u := by
  intro k
  induction k with
  | zero =>
    intro u
    rfl
  | succ n ih =>
    intro u
    rw [List.replicate_succ, List.cons_append, collapseAux_true_cons_space]
    exact ih u

theorem collapseAux_false_run (k : Nat) (u : List Char) :
    collapseAux false (List.replicate (k + 1) ' ' ++ u) = ' ' :: collapseAux true u := by
  rw [List.replicate_succ, List.cons_append, collapseAux_false_cons_space,
    collapseAux_true_replicate k u]

theorem collapseAux_true_eq_false {u : List Char}
    (h : u = [] ∨ ∃ c u2, u = c :: u2 ∧ c ≠ ' ') :
    collapseAux true u = collapseAux false u := by
  rcases h with rfl | ⟨c, u2, rfl, hc⟩
  · rfl
  · rw [collapseAux_cons_nonspace true hc, collapseAux_cons_nonspace false hc]

theorem splitSpAux_cons_space (acc u : List Char) :
    splitSpAux acc (' ' :: u) = acc.reverse :: splitSpAux [] u := rfl

theorem splitSpAux_cons_nonspace {c : Char} (hc : ¬(c = ' ')) (acc l : List Char) :
    splitSpAux acc (c :: l) = splitSpAux (c :: acc) l := by
  simp only [splitSpAux, if_neg hc]

theorem splitSpAux_token : ∀ (t : List Char), (∀ c ∈ t, c ≠ ' ') →
    ∀ (acc : List Char) (u : List Char),
      splitSpAux acc (t ++ ' ' :: u) = (acc.reverse ++ t) :: splitSpAux [] u := by
  intro t
  induction t with
  | nil =>
    intro _ acc u
    rw [List.nil_append, splitSpAux_cons_space, List.append_nil]
  | cons c t2 ih =>
    intro h acc u
    have hc : ¬(c = ' ') := h c (List.mem_cons_self c t2)
    rw [List.cons_append, splitSpAux_cons_nonspace hc,
      ih (fun d hd => h d (List.mem_cons_of_mem c hd)) (c :: acc) u,
      List.reverse_cons, List.append_assoc, List.singleton_append]

theorem splitSpAux_last : ∀ (t : List Char), (∀ c ∈ t, c ≠ ' ') →
    ∀ (acc : List Char), splitSpAux acc t = [acc.reverse ++ t] := by
  intro t
  induction t with
  | nil =>
    intro _ acc
    show [acc.reverse] = [acc.reverse ++ []]
    rw [List.append_nil]
  | cons c t2 ih =>
    intro h acc
    have hc : ¬(c = ' ') := h c (List.mem_cons_self c t2)
    rw [splitSpAux_cons_nonspace hc,
      ih (fun d hd => h d (List.mem_cons_of_mem c hd)) (c :: acc),
      List.reverse_cons, List.append_assoc, List.singleton_append]

theorem tokens_core : ∀ (rest : List (Nat × List Char)) (t : List Char),
    noSpaceTok t → (∀ p ∈ rest, noSpaceTok p.2) →
    splitOnSpace (collapseAux false (sepJoin t rest)) = t :: rest.map Prod.snd := by
  intro rest
  induction rest with
  | nil =>
    intro t ht _
    have htn : ∀ c ∈ t, c ≠ ' ' := nonspace_of_noSpace ht.2
    have h1 : collapseAux false t = t := by
      have h2 := collapseAux_nonspace t htn []
      rw [List.append_nil, collapseAux_nil, List.append_nil] at h2
      exact h2
    show splitOnSpace (collapseAux false t) = [t]
    rw [h1]
    unfold splitOnSpace
    rw [splitSpAux_last t htn [], List.reverse_nil, List.nil_append]
  | cons p rest2 ih =>
    intro t ht hall
    have htn : ∀ c ∈ t, c ≠ ' ' := nonspace_of_noSpace ht.2
    have hp2 := hall p (List.mem_cons_self p rest2)
    have hstep : sepJoin t (p :: rest2) =
        t ++ (List.replicate (p.1 + 1) ' ' ++ sepJoin p.2 rest2) := by
      simp only [sepJoin, List.append_assoc]
    rw [hstep, collapseAux_nonspace t htn, collapseAux_false_run]
    have hhd : collapseAux true (sepJoin p.2 rest2) =
        collapseAux false (sepJoin p.2 rest2) := by
      apply collapseAux_true_eq_false
      right
      cases hp2h : p.2 with
      | nil => exact absurd hp2h hp2.1
      | cons c u =>
        obtain ⟨u2, hu2⟩ := sepJoin_cons c u rest2
        refine ⟨c, u2, ?_, ?_⟩
        · exact hu2
        · have hcns := hp2.2 c (by rw [hp2h]; exact List.mem_cons_self c u)
          intro heq
          rw [heq] at hcns
          exact absurd hcns (by decide)
    rw [hhd]
    unfold splitOnSpace
    rw [splitSpAux_token t htn []]
    have hrec := ih p.2 hp2 (fun q hq => hall q (List.mem_cons_of_mem p hq))
    unfold splitOnSpace at hrec
    rw [hrec, List.reverse_nil, List.nil_append, List.map_cons]

/-- C8 amended: each line is trimmed of leading and trailing white space, and every
interior run of one or more spaces acts as a single separator, so any numbers of
SPACES around and between tokens produce the same token sequence; interior tabs
and other non-space white space are not collapsed and are not separators (see the
counterexample), so the invariance holds for spaces, not for every kind of white
space. -/
theorem space_runs_tokenize_same (a b : Nat) (t : List Char)
    (rest : List (Nat × List Char))
    (ht : noSpaceTok t) (hrest : ∀ p ∈ rest, noSpaceTok p.2) :
    splitOnSpace (stripSpacesL
        (List.replicate a ' ' ++ sepJoin t rest ++ List.replicate b ' ')) =
      t :: rest.map Prod.snd := by
  unfold stripSpacesL
  obtain ⟨c2, u2, hrev, hc2⟩ := sepJoin_rev_head rest t ht hrest
  cases hh : t with
  | nil => exact absurd hh ht.1
  | cons c1 t2 =>
    subst hh
    obtain ⟨u1, hu1⟩ := sepJoin_cons c1 t2 rest
    have hc1 : goIsSpace c1 = false := ht.2 c1 (List.mem_cons_self c1 t2)
    rw [trimSpace_padded a b hu1 hrev hc1 hc2]
    exact tokens_core rest (c1 :: t2) ht hrest

/-- C8 amended, witness: two spaces of lead, a three-space interior run and one
space of trail around the tokens `ab` and `cd` tokenize to exactly those two
tokens. -/
theorem space_runs_tokenize_same_witness :
    splitOnSpace (stripSpacesL
        (List.replicate 2 ' ' ++ sepJoin (['a', 'b']) [(3, ['c', 'd'])] ++
          List.replicate 1 ' ')) = [['a', 'b'], ['c', 'd']] := by
  have h := space_runs_tokenize_same 2 1 (['a', 'b']) [(3, ['c', 'd'])]
    (by constructor <;> decide) (by decide)
  simpa using h
